import Mathlib

/-!
Verification of the Descend-LSP server (`src/server/src/main.rs`,
`src/server/src/structures.rs`, `src/server/router_macro/src/lib.rs`).

Shallow embedding conventions:
* Rust `String` values are embedded as `List Nat` of Unicode code points
  (`Str`); `String::len` (a byte count in Rust) is embedded as the length of
  the UTF-8 encoding of the code-point list.  The source indexes strings by
  bytes; every theorem below restricts to in-bounds indices (and the concrete
  inputs are ASCII), where byte indices and code-point indices agree.
* Byte streams are `List Nat` of bytes (each < 256).
* A Rust panic (`panic!`, `unwrap`, `expect`, out-of-bounds index) is embedded
  as the `.error` case of `Except Str _`; a returned `Err` of the source is a
  distinct constructor where the distinction matters (`ReadResult.err` vs
  `ReadResult.panic`).
* `HashMap<String, TextDocument>` is embedded as an association list with
  unique keys (`mapInsert` replaces, `mapRemove` deletes).
* serde_json numbers are embedded as `Int` (no claim involves floats).
-/

/-- Strings as lists of Unicode code points. -/
abbrev Str := List Nat

/-- Code points of a Lean string literal (used to write embedded Rust string
literals). -/
def str (s : String) : Str := s.toList.map Char.toNat

/-! ## Text buffer (`TextDocument` in `main.rs`) -/

/-- `Position` from `structures.rs`: zero-based line / character. -/
structure Position where
  line : Nat
  character : Nat
deriving DecidableEq, Repr

/-- `Range` from `structures.rs`. -/
structure Range where
  start : Position
  «end» : Position
deriving DecidableEq, Repr

/-- `TextDocument` from `main.rs`: an ordered list of lines. -/
structure TextDocument where
  lines : List Str
deriving DecidableEq, Repr

/-- Rust `s.replace_range(a..b, "")`: drop the slice `[a, b)`. -/
def replRange (s : Str) (a b : Nat) : Str := s.take a ++ s.drop b

/-- One iteration of the `while` loop in `TextDocument::erase`
(`main.rs` lines 195-212), at loop counter `c`. -/
def eraseStep (r : Range) (c_total c : Nat) (lines : List Str) : List Str :=
  let first := c = 0
  let last := c = c_total - 1
  if first ∧ last then
    -- range only spans a single line
    lines.set r.start.line (replRange (lines.getD r.start.line []) r.start.character r.«end».character)
  else if first then
    -- truncate the first line at start.character
    lines.set r.start.line ((lines.getD r.start.line []).take r.start.character)
  else if ¬ first ∧ ¬ last then
    lines.eraseIdx (r.start.line + 1)
  else
    -- remove last line and append its tail to the first line
    let line := lines.getD (r.start.line + 1) []
    let ls := lines.eraseIdx (r.start.line + 1)
    ls.set r.start.line (ls.getD r.start.line [] ++ line.drop r.«end».character)

/-- The `while c < c_total` loop of `TextDocument::erase`.  The loop runs
exactly `c_total` times (`c` counts `0, 1, …`); `k` is the number of
iterations still to run, kept structural so the kernel can evaluate. -/
def eraseLoop (r : Range) (c_total : Nat) : Nat → Nat → List Str → List Str
  | _, 0, lines => lines
  | c, k + 1, lines => eraseLoop r c_total (c + 1) k (eraseStep r c_total c lines)

/-- `TextDocument::erase` (`main.rs` lines 191-213). -/
def TextDocument.erase (d : TextDocument) (r : Range) : TextDocument :=
  let c_total := r.«end».line - r.start.line + 1
  ⟨eraseLoop r c_total 0 c_total d.lines⟩

/-- Rust `str::split("\r\n")`: split on non-overlapping occurrences of the
two-byte separator; always yields at least one (possibly empty) segment. -/
def splitCRLF : Str → List Str
  | [] => [[]]
  | 13 :: 10 :: r => [] :: splitCRLF r
  | a :: r =>
    match splitCRLF r with
    | [] => [[a]]
    | h :: t => (a :: h) :: t

/-- Rust `s.insert_str(idx, t)`. -/
def insertStr (s : Str) (idx : Nat) (t : Str) : Str := s.take idx ++ t ++ s.drop idx

/-- One iteration of the `for text_line in text_lines` loop of
`TextDocument::insert` (`main.rs` lines 221-241), at index `i`. -/
def insertStep (p : Position) (count i : Nat) (text_line : Str) (lines : List Str) : List Str :=
  let first := i = 0
  let last := i = count - 1
  if first ∧ last then
    -- text only has a single line
    lines.set p.line (insertStr (lines.getD p.line []) p.character text_line)
  else if first then
    -- break document line at the position and append the first text line
    let line_head0 := lines.getD p.line []
    let lines1 := lines.eraseIdx p.line
    let line_head := line_head0.take p.character
    let line_tail := line_head0.drop p.character
    let lines2 := lines1.insertIdx p.line line_head
    let lines3 := lines2.set p.line (lines2.getD p.line [] ++ text_line)
    lines3.insertIdx (p.line + 1) line_tail
  else if ¬ first ∧ ¬ last then
    lines.insertIdx (p.line + i) text_line
  else
    lines.set (p.line + i) (insertStr (lines.getD (p.line + i) []) 0 text_line)

/-- The indexed iteration over the split text of `TextDocument::insert`. -/
def insertLoop (p : Position) (count i : Nat) : List Str → List Str → List Str
  | [], lines => lines
  | s :: rest, lines => insertLoop p count (i + 1) rest (insertStep p count i s lines)

/-- `TextDocument::insert` (`main.rs` lines 216-242). -/
def TextDocument.insert (d : TextDocument) (p : Position) (text : Str) : TextDocument :=
  let text_lines := splitCRLF text
  ⟨insertLoop p text_lines.length 0 text_lines d.lines⟩

/-- `TextDocument::edit` (`main.rs` lines 245-248): erase, then insert at the
start of the erased range. -/
def TextDocument.edit (d : TextDocument) (r : Range) (text : Str) : TextDocument :=
  (d.erase r).insert r.start text

/-! ## Framer (`RawMessage` in `main.rs`)

The byte stream feeding `RawMessage::read` is a `List Nat` of bytes; reading
consumes a prefix.  `BufRead::read_line` reads up to and including the next
`\n` byte and fails if those bytes are not valid UTF-8.
-/

/-- Rust `char::is_whitespace` (the `White_Space` property). -/
def wsB (c : Nat) : Bool :=
  c = 9 || c = 10 || c = 11 || c = 12 || c = 13 || c = 32 ||
  c = 0x85 || c = 0xA0 || c = 0x1680 ||
  (0x2000 ≤ c && c ≤ 0x200A) || c = 0x2028 || c = 0x2029 ||
  c = 0x202F || c = 0x205F || c = 0x3000

/-- Rust `str::trim`. -/
def trimStr (s : Str) : Str := ((s.dropWhile wsB).reverse.dropWhile wsB).reverse

/-- The first two items of Rust `s.split(':')`: the prefix before the first
colon (always present), and the text between the first and second colon
(`none` when the string has no colon at all). -/
def splitColon : Str → Str × Option Str
  | [] => ([], none)
  | c :: r =>
    if c = 58 then ([], some (r.takeWhile (fun x => x != 58)))
    else
      let (a, b) := splitColon r
      (c :: a, b)

/-- Decimal accumulation used by integer parsing. -/
def natVal (d : Str) : Nat := d.foldl (fun a c => a * 10 + (c - 48)) 0

/-- Rust `usize::from_str` (`"123".parse()`), with its error messages.
(The u64 overflow bound of `usize` is not modelled; no theorem below
involves values near it.) -/
def parseUsize (s : Str) : Except Str Nat :=
  if s = [] then .error (str "cannot parse integer from empty string")
  else
    let digits := if s.headD 0 = 43 then s.tail else s
    if digits = [] then .error (str "cannot parse integer from empty string")
    else if digits.all (fun c => 48 ≤ c && c ≤ 57) then .ok (natVal digits)
    else .error (str "invalid digit found in string")

/-- UTF-8 encoding of one Unicode scalar value. -/
def utf8EncodeChar (n : Nat) : List Nat :=
  if n < 0x80 then [n]
  else if n < 0x800 then [0xC0 + n / 64, 0x80 + n % 64]
  else if n < 0x10000 then [0xE0 + n / 4096, 0x80 + n / 64 % 64, 0x80 + n % 64]
  else [0xF0 + n / 262144, 0x80 + n / 4096 % 64, 0x80 + n / 64 % 64, 0x80 + n % 64]

/-- UTF-8 encoding of a string (Rust strings are stored this way; this is
also what `write_fmt` puts on the wire and what `String::len` measures). -/
def utf8Encode (s : Str) : List Nat := (s.map utf8EncodeChar).flatten

/-- Rust `String::len`: the byte length of a string. -/
def strByteLen (s : Str) : Nat := (utf8Encode s).length

/-- A UTF-8 continuation byte. -/
abbrev isCont (c : Nat) : Prop := 0x80 ≤ c ∧ c < 0xC0

/-- Scalar value of a 2-byte UTF-8 sequence. -/
def val2 (b c1 : Nat) : Nat := (b - 0xC0) * 64 + (c1 - 0x80)

/-- Validity of a 2-byte UTF-8 sequence (continuation byte, no overlong). -/
abbrev ok2 (b c1 : Nat) : Prop := isCont c1 ∧ 0x80 ≤ val2 b c1

/-- Scalar value of a 3-byte UTF-8 sequence. -/
def val3 (b c1 c2 : Nat) : Nat := (b - 0xE0) * 4096 + (c1 - 0x80) * 64 + (c2 - 0x80)

/-- Validity of a 3-byte UTF-8 sequence (continuations, no overlong, no
surrogate). -/
abbrev ok3 (b c1 c2 : Nat) : Prop :=
  isCont c1 ∧ isCont c2 ∧ 0x800 ≤ val3 b c1 c2 ∧
  ¬ (0xD800 ≤ val3 b c1 c2 ∧ val3 b c1 c2 ≤ 0xDFFF)

/-- Scalar value of a 4-byte UTF-8 sequence. -/
def val4 (b c1 c2 c3 : Nat) : Nat :=
  (b - 0xF0) * 262144 + (c1 - 0x80) * 4096 + (c2 - 0x80) * 64 + (c3 - 0x80)

/-- Validity of a 4-byte UTF-8 sequence. -/
abbrev ok4 (b c1 c2 c3 : Nat) : Prop :=
  isCont c1 ∧ isCont c2 ∧ isCont c3 ∧
  0x10000 ≤ val4 b c1 c2 c3 ∧ val4 b c1 c2 c3 ≤ 0x10FFFF

/-- Strict UTF-8 decoding (`String::from_utf8`), one scalar per step:
rejects truncated sequences, overlong encodings, surrogates and values
above `0x10FFFF`.  `fuel` only bounds the recursion (one unit per decoded
scalar; each scalar consumes at least one byte, so `bs.length` units are
always enough — see `utf8Decode`). -/
def utf8DecodeF : Nat → List Nat → Option Str
  | _, [] => some []
  | 0, _ :: _ => none
  | fuel + 1, b :: rest =>
    if b < 0x80 then (utf8DecodeF fuel rest).map (b :: ·)
    else if b < 0xC0 then none
    else if b < 0xE0 then
      if rest.length < 1 then none
      else if ok2 b (rest.headD 0) then
        (utf8DecodeF fuel rest.tail).map (val2 b (rest.headD 0) :: ·)
      else none
    else if b < 0xF0 then
      if rest.length < 2 then none
      else if ok3 b (rest.headD 0) (rest.tail.headD 0) then
        (utf8DecodeF fuel rest.tail.tail).map (val3 b (rest.headD 0) (rest.tail.headD 0) :: ·)
      else none
    else if b < 0xF8 then
      if rest.length < 3 then none
      else if ok4 b (rest.headD 0) (rest.tail.headD 0) (rest.tail.tail.headD 0) then
        (utf8DecodeF fuel rest.tail.tail.tail).map
          (val4 b (rest.headD 0) (rest.tail.headD 0) (rest.tail.tail.headD 0) :: ·)
      else none
    else none

/-- Strict UTF-8 decoding of a whole byte list. -/
def utf8Decode (bs : List Nat) : Option Str := utf8DecodeF bs.length bs

/-- `RawMessage` from `main.rs`. -/
structure RawMessage where
  content_length : Nat
  content_type : Str
  content : Str
deriving DecidableEq, Repr

/-- Outcome of `RawMessage::read` on a byte stream: a message plus the
unconsumed stream, a returned `Err`, a Rust panic, or the infinite header
loop the source enters when the stream is exhausted before any header. -/
inductive ReadResult where
  | ok (msg : RawMessage) (rest : List Nat)
  | err (e : Str)
  | panic (e : Str)
  | diverge
deriving DecidableEq, Repr

/-- `BufRead::read_line`'s byte consumption: everything up to and including
the first `\n` byte (to end of stream if there is none). -/
def splitAtNL : List Nat → List Nat × List Nat
  | [] => ([], [])
  | b :: r =>
    if b = 10 then ([10], r)
    else
      let (l, rest) := splitAtNL r
      (b :: l, rest)

/-- The content phase after the header loop breaks: `read_exact` of
`content_length` bytes (panics on a short stream) then `String::from_utf8`
(panics on invalid UTF-8). -/
def readContent (msg : RawMessage) (rest : List Nat) : ReadResult :=
  if rest.length < msg.content_length then .panic (str "Error while reading from buffer!")
  else
    match utf8Decode (rest.take msg.content_length) with
    | none => .panic (str "Error while converting content bytes to UTF8!")
    | some s =>
      .ok { msg with content := s } (rest.drop msg.content_length)

/-- The header loop of `RawMessage::read` (`main.rs` lines 123-143).  Each
iteration consumes one line; `fuel` only bounds the iteration count (one
unit per line, and every line of a nonempty stream consumes at least one
byte, so `bytes.length + 1` units never run out; an empty stream with no
header read yet makes the source loop forever, returned as `.diverge`). -/
def readLoop : Nat → List Nat → RawMessage → Bool → ReadResult
  | 0, _, _, _ => .diverge
  | fuel + 1, bytes, msg, read_any =>
    let (lineB, rest) := splitAtNL bytes
    match utf8Decode lineB with
    | none => .err (str "stream did not contain valid UTF-8")
    | some header_field =>
      if trimStr header_field = [] then
        if read_any then readContent msg rest
        else if bytes = [] then .diverge
        else readLoop fuel rest msg read_any
      else
        match splitColon header_field with
        | (_, none) =>
          .err (str "Syntax error: Header field needs to be of the form \"X: Y\r\n\"!")
        | (namePart, some valuePart) =>
          let name := trimStr namePart
          let value := trimStr valuePart
          if name = str "Content-Length" then
            match parseUsize value with
            | .error e => .err e
            | .ok n => readLoop fuel rest { msg with content_length := n } true
          else if name = str "Content-Type" then
            readLoop fuel rest { msg with content_type := value } true
          else
            .err (str "Unexpected header field \"" ++ name ++ str "\"!")

/-- `RawMessage::read` (`main.rs` lines 117-150). -/
def RawMessage.read (bytes : List Nat) : ReadResult :=
  readLoop (bytes.length + 1) bytes ⟨0, [], []⟩ false

/-- Decimal digits of a `Nat` (what Rust's `{}` formatting of `usize`
prints). -/
def natDec (n : Nat) : Str := str (Nat.repr n)

/-- `RawMessage::write` (`main.rs` lines 159-171): the bytes put on the
stream — `Content-Length`, then `Content-Type` only when non-empty, then a
blank line, then the content bytes verbatim. -/
def RawMessage.write (m : RawMessage) : List Nat :=
  utf8Encode (str "Content-Length: " ++ natDec m.content_length ++ [13, 10]) ++
  (if m.content_type = [] then []
   else utf8Encode (str "Content-Type: " ++ m.content_type ++ [13, 10])) ++
  utf8Encode [13, 10] ++
  utf8Encode m.content

/-- A byte that can sit in a header name or value: ASCII, not whitespace,
not a colon, not a line feed. -/
abbrev plainHC (c : Nat) : Prop := c < 0x80 ∧ wsB c = false ∧ c ≠ 58 ∧ c ≠ 10

/-! ## JSON values (`serde_json::Value`)

Numbers are embedded as `Int` (no claim involves floating-point JSON).
Objects are association lists; duplicate keys collapse to the last
occurrence while parsing, mirroring `serde_json`'s map insertion. -/

inductive Json where
  | null
  | bool (b : Bool)
  | num (n : Int)
  | str (s : Str)
  | arr (xs : List Json)
  | obj (fields : List (Str × Json))

/-- Lowercase hex digit. -/
def hexDigit (n : Nat) : Nat := if n < 10 then 48 + n else 87 + n

/-- `serde_json`'s escaping of one character inside a JSON string. -/
def escInStr (c : Nat) : Str :=
  if c = 34 then [92, 34]
  else if c = 92 then [92, 92]
  else if c = 8 then [92, 98]
  else if c = 9 then [92, 116]
  else if c = 10 then [92, 110]
  else if c = 12 then [92, 102]
  else if c = 13 then [92, 114]
  else if c < 32 then [92, 117, 48, 48, hexDigit (c / 16), hexDigit (c % 16)]
  else [c]

/-- Decimal rendering of an `Int`. -/
def intDec (n : Int) : Str := if n < 0 then 45 :: natDec n.natAbs else natDec n.natAbs

mutual
/-- `serde_json::Value::to_string` (the `Display` serialization). -/
def Json.toStr : Json → Str
  | .null => [110, 117, 108, 108]
  | .bool true => [116, 114, 117, 101]
  | .bool false => [102, 97, 108, 115, 101]
  | .num n => intDec n
  | .str s => 34 :: (s.map escInStr).flatten ++ [34]
  | .arr xs => 91 :: Json.toStrItems xs ++ [93]
  | .obj fs => 123 :: Json.toStrFields fs ++ [125]

/-- Comma-separated serialization of array items. -/
def Json.toStrItems : List Json → Str
  | [] => []
  | [x] => Json.toStr x
  | x :: y :: xs => Json.toStr x ++ 44 :: Json.toStrItems (y :: xs)

/-- Comma-separated serialization of object members (`"key":value`). -/
def Json.toStrFields : List (Str × Json) → Str
  | [] => []
  | [(k, v)] => 34 :: (k.map escInStr).flatten ++ 34 :: 58 :: Json.toStr v
  | (k, v) :: f2 :: fs =>
    (34 :: (k.map escInStr).flatten ++ 34 :: 58 :: Json.toStr v) ++
      44 :: Json.toStrFields (f2 :: fs)
end

/-- `content.to_string()` in `RawMessage::from`. -/
def Json.toString (j : Json) : Str := Json.toStr j

/-! ## JSON parsing (`serde_json::from_str`), used by `Message::from_raw`.

Recursive descent with fuel (each call consumes fuel; `4·length + 8` never
runs out on inputs the theorems touch).  Floating-point numbers are not
modelled (no claim involves them); every other accepting/rejecting rule
follows `serde_json`: strict literals, string escapes with surrogate
pairs, no leading zeros, no control characters inside strings, and no
trailing non-whitespace. -/

/-- JSON insignificant whitespace. -/
def jsonWs (c : Nat) : Bool := c = 32 || c = 9 || c = 10 || c = 13

def skipWs (s : Str) : Str := s.dropWhile jsonWs

/-- Value of one hex digit. -/
def hexVal (c : Nat) : Option Nat :=
  if 48 ≤ c ∧ c ≤ 57 then some (c - 48)
  else if 97 ≤ c ∧ c ≤ 102 then some (c - 87)
  else if 65 ≤ c ∧ c ≤ 70 then some (c - 55)
  else none

def hex4 (a b c d : Nat) : Option Nat := do
  let x1 ← hexVal a
  let x2 ← hexVal b
  let x3 ← hexVal c
  let x4 ← hexVal d
  some (x1 * 4096 + x2 * 256 + x3 * 16 + x4)

/-- JSON string body after the opening quote: returns the decoded
code points and the input after the closing quote. -/
def pString : Str → Option (Str × Str)
  | [] => none
  | 34 :: r => some ([], r)
  | 92 :: 117 :: h1 :: h2 :: h3 :: h4 :: r =>
    match hex4 h1 h2 h3 h4 with
    | none => none
    | some v =>
      if 0xD800 ≤ v ∧ v ≤ 0xDBFF then
        match r with
        | 92 :: 117 :: k1 :: k2 :: k3 :: k4 :: r2 =>
          match hex4 k1 k2 k3 k4 with
          | none => none
          | some w =>
            if 0xDC00 ≤ w ∧ w ≤ 0xDFFF then
              (pString r2).map fun (s', r') =>
                ((0x10000 + (v - 0xD800) * 1024 + (w - 0xDC00)) :: s', r')
            else none
        | _ => none
      else if 0xDC00 ≤ v ∧ v ≤ 0xDFFF then none
      else (pString r).map fun (s', r') => (v :: s', r')
  | 92 :: e :: r =>
    match
      (if e = 34 then some 34 else if e = 92 then some 92 else if e = 47 then some 47
       else if e = 98 then some 8 else if e = 102 then some 12 else if e = 110 then some 10
       else if e = 114 then some 13 else if e = 116 then some 9 else none : Option Nat)
    with
    | none => none
    | some c => (pString r).map fun (s', r') => (c :: s', r')
  | c :: r =>
    if c < 32 then none
    else (pString r).map fun (s', r') => (c :: s', r')

/-- JSON number body (integers only): digits with no leading zero, not
followed by a fraction or exponent. -/
def pNumBody (s : Str) : Option (Nat × Str) :=
  let digits := s.takeWhile fun c => decide (48 ≤ c ∧ c ≤ 57)
  let rest := s.dropWhile fun c => decide (48 ≤ c ∧ c ≤ 57)
  if digits = [] then none
  else if 1 < digits.length ∧ digits.headD 0 = 48 then none
  else
    match rest with
    | 46 :: _ => none
    | 101 :: _ => none
    | 69 :: _ => none
    | _ => some (natVal digits, rest)

/-- Replace the first binding of `k`, else append (`serde_json` maps keep
one value per key; a duplicate key in the input overwrites). -/
def objUpdate (fs : List (Str × Json)) (k : Str) (v : Json) : List (Str × Json) :=
  match fs with
  | [] => [(k, v)]
  | (k', v') :: rest => if k' = k then (k', v) :: rest else (k', v') :: objUpdate rest k v

/-- Parser jobs: a value, the items of an array after its first `[`, or the
members of an object after its first brace. -/
inductive PJob where
  | val
  | arrItems (acc : List Json)
  | objItems (acc : List (Str × Json))

def pRun : Nat → PJob → Str → Option (Json × Str)
  | 0, _, _ => none
  | f + 1, .val, s =>
    match skipWs s with
    | 110 :: 117 :: 108 :: 108 :: r => some (.null, r)
    | 116 :: 114 :: 117 :: 101 :: r => some (.bool true, r)
    | 102 :: 97 :: 108 :: 115 :: 101 :: r => some (.bool false, r)
    | 34 :: r => (pString r).map fun (s', r') => (.str s', r')
    | 91 :: r =>
      match skipWs r with
      | 93 :: r2 => some (.arr [], r2)
      | s2 => pRun f (.arrItems []) s2
    | 123 :: r =>
      match skipWs r with
      | 125 :: r2 => some (.obj [], r2)
      | s2 => pRun f (.objItems []) s2
    | 45 :: r => (pNumBody r).map fun (n, r') => (.num (-(n : Int)), r')
    | c :: r =>
      if 48 ≤ c ∧ c ≤ 57 then (pNumBody (c :: r)).map fun (n, r') => (.num (n : Int), r')
      else none
    | [] => none
  | f + 1, .arrItems acc, s =>
    match pRun f .val s with
    | none => none
    | some (v, r) =>
      match skipWs r with
      | 44 :: r2 => pRun f (.arrItems (acc ++ [v])) r2
      | 93 :: r2 => some (.arr (acc ++ [v]), r2)
      | _ => none
  | f + 1, .objItems acc, s =>
    match skipWs s with
    | 34 :: r =>
      match pString r with
      | none => none
      | some (k, r2) =>
        match skipWs r2 with
        | 58 :: r3 =>
          match pRun f .val r3 with
          | none => none
          | some (v, r4) =>
            match skipWs r4 with
            | 44 :: r5 => pRun f (.objItems (objUpdate acc k v)) r5
            | 125 :: r5 => some (.obj (objUpdate acc k v), r5)
            | _ => none
        | _ => none
    | _ => none

/-- `serde_json::from_str`'s parsing phase (value plus nothing but trailing
whitespace). -/
def parseJson (s : Str) : Option Json :=
  match pRun (4 * s.length + 8) .val s with
  | some (v, r) => if skipWs r = [] then some v else none
  | none => none

/-! ## LSP structures (`structures.rs`) and messages (`main.rs`) -/

/-- `Id` from `structures.rs` (the name `Id` itself collides with a Lean
builtin): untagged union of u64, string, or any JSON value. -/
inductive MsgId where
  | AsInt (n : Nat)
  | AsString (s : Str)
  | AsJson (j : Json)

/-- `ResponseError` from `main.rs`. -/
structure ResponseError where
  code : Int
  message : Str
  data : Option Json

def ResponseError.PARSE_ERROR : Int := -32700
def ResponseError.INVALID_REQUEST : Int := -32600
def ResponseError.METHOD_NOT_FOUND : Int := -32601
def ResponseError.INVALID_PARAMS : Int := -32602
def ResponseError.INTERNAL_ERROR : Int := -32603

/-- `RequestMessage` from `main.rs`. -/
structure RequestMessage where
  jsonrpc : Str
  id : MsgId
  method : Str
  params : Json

/-- `ResponseMessage` from `main.rs`. -/
structure ResponseMessage where
  jsonrpc : Str
  id : MsgId
  result : Option Json
  error : Option ResponseError

/-- `NotificationMessage` from `main.rs`. -/
structure NotificationMessage where
  jsonrpc : Str
  method : Str
  params : Json

/-- `ResponseMessage::error` from `main.rs` (lines 79-92; `error` itself
names a field, which Lean does not allow for a declaration). -/
def ResponseMessage.mkError (id : MsgId) (code : Int) (message : Str) : ResponseMessage :=
  { jsonrpc := str "2.0", id := id, result := none,
    error := some { code := code, message := message, data := none } }

/-- `Message` from `main.rs` (lines 94-101): an untagged union, tried in
declaration order Request, Response, Notification. -/
inductive Message where
  | Request (m : RequestMessage)
  | Response (m : ResponseMessage)
  | Notification (m : NotificationMessage)

structure ClientInfo where
  name : Str
  version : Option Str

structure ServerInfo where
  name : Str
  version : Str

structure TextDocumentItem where
  uri : Str
  language_id : Str
  version : Int
  text : Str

structure TextDocumentIdentifier where
  uri : Str

structure TextDocumentSyncOptions where
  open_close : Bool
  change : Nat

structure ServerCapabilities where
  text_document_sync : TextDocumentSyncOptions
  hover_provider : Bool

structure TextDocumentContentChangeEvent where
  range : Range
  text : Str

structure MarkupContent where
  kind : Str
  value : Str

structure Hover where
  contents : MarkupContent

/-- `InitializeResult` from `main.rs`. -/
structure InitializeResult where
  capabilities : ServerCapabilities
  server_info : ServerInfo

/-! ## serde deserialization from a `Json` value

Derived-`Deserialize` semantics: structs decode from objects only, ignore
unknown fields, require non-`Option` fields, and treat a missing or `null`
`Option` field as `None`; field names are the `camelCase` renames of the
Rust fields. -/

def getField (fs : List (Str × Json)) (k : Str) : Option Json :=
  (fs.find? fun p => decide (p.1 = k)).map (·.2)

def optField {α : Type} (fs : List (Str × Json)) (k : Str) (dec : Json → Option α) :
    Option (Option α) :=
  match getField fs k with
  | none => some none
  | some .null => some none
  | some v => (dec v).map some

def decodeJsonString : Json → Option Str
  | .str s => some s
  | _ => none

def decodeU32 : Json → Option Nat
  | .num n => if 0 ≤ n ∧ n < 4294967296 then some n.toNat else none
  | _ => none

def decodeI32 : Json → Option Int
  | .num n => if -2147483648 ≤ n ∧ n < 2147483648 then some n else none
  | _ => none

/-- Untagged `Id`: u64, else string, else arbitrary JSON — never fails. -/
def decodeId (j : Json) : MsgId :=
  match j with
  | .num n => if 0 ≤ n ∧ n < 18446744073709551616 then .AsInt n.toNat else .AsJson j
  | .str s => .AsString s
  | _ => .AsJson j

def decodeRequestMessage : Json → Option RequestMessage
  | .obj fs => do
    let jr ← getField fs (str "jsonrpc") >>= decodeJsonString
    let idj ← getField fs (str "id")
    let m ← getField fs (str "method") >>= decodeJsonString
    let p ← getField fs (str "params")
    some ⟨jr, decodeId idj, m, p⟩
  | _ => none

def decodeResponseError : Json → Option ResponseError
  | .obj fs => do
    let c ← getField fs (str "code") >>= decodeI32
    let m ← getField fs (str "message") >>= decodeJsonString
    let d ← optField fs (str "data") some
    some ⟨c, m, d⟩
  | _ => none

def decodeResponseMessage : Json → Option ResponseMessage
  | .obj fs => do
    let jr ← getField fs (str "jsonrpc") >>= decodeJsonString
    let idj ← getField fs (str "id")
    let r ← optField fs (str "result") some
    let e ← optField fs (str "error") decodeResponseError
    some ⟨jr, decodeId idj, r, e⟩
  | _ => none

def decodeNotificationMessage : Json → Option NotificationMessage
  | .obj fs => do
    let jr ← getField fs (str "jsonrpc") >>= decodeJsonString
    let m ← getField fs (str "method") >>= decodeJsonString
    let p ← getField fs (str "params")
    some ⟨jr, m, p⟩
  | _ => none

/-- The untagged `Message` deserializer: serde tries the variants in
declaration order and keeps the first success. -/
def decodeMessage (j : Json) : Option Message :=
  match decodeRequestMessage j with
  | some r => some (.Request r)
  | none =>
    match decodeResponseMessage j with
    | some r => some (.Response r)
    | none =>
      match decodeNotificationMessage j with
      | some n => some (.Notification n)
      | none => none

/-- `Message::from_raw` (`main.rs` lines 176-179): parse the content, then
untagged selection.  (The source comment claims "serde will automatically
pick the correct message type".) -/
def Message.from_raw (raw : RawMessage) : Except Str Message :=
  match parseJson raw.content with
  | none => .error (str "JSON parse error")
  | some j =>
    match decodeMessage j with
    | some m => .ok m
    | none => .error (str "data did not match any variant of untagged enum Message")

def decodeClientInfo : Json → Option ClientInfo
  | .obj fs => do
    let n ← getField fs (str "name") >>= decodeJsonString
    let v ← optField fs (str "version") decodeJsonString
    some ⟨n, v⟩
  | _ => none

def decodePosition : Json → Option Position
  | .obj fs => do
    let l ← getField fs (str "line") >>= decodeU32
    let c ← getField fs (str "character") >>= decodeU32
    some ⟨l, c⟩
  | _ => none

def decodeRange : Json → Option Range
  | .obj fs => do
    let a ← getField fs (str "start") >>= decodePosition
    let b ← getField fs (str "end") >>= decodePosition
    some ⟨a, b⟩
  | _ => none

def decodeTextDocumentIdentifier : Json → Option TextDocumentIdentifier
  | .obj fs => do
    let u ← getField fs (str "uri") >>= decodeJsonString
    some ⟨u⟩
  | _ => none

def decodeTextDocumentItem : Json → Option TextDocumentItem
  | .obj fs => do
    let u ← getField fs (str "uri") >>= decodeJsonString
    let l ← getField fs (str "languageId") >>= decodeJsonString
    let v ← getField fs (str "version") >>= decodeI32
    let t ← getField fs (str "text") >>= decodeJsonString
    some ⟨u, l, v, t⟩
  | _ => none

def decodeContentChange : Json → Option TextDocumentContentChangeEvent
  | .obj fs => do
    let r ← getField fs (str "range") >>= decodeRange
    let t ← getField fs (str "text") >>= decodeJsonString
    some ⟨r, t⟩
  | _ => none

def decodeContentChanges : Json → Option (List TextDocumentContentChangeEvent)
  | .arr xs => xs.mapM decodeContentChange
  | _ => none

/-- `Params` of the generated `"initialize"` arm. -/
def decodeInitializeParams : Json → Option (Option ClientInfo × Option Str)
  | .obj fs => do
    let ci ← optField fs (str "clientInfo") decodeClientInfo
    let lo ← optField fs (str "locale") decodeJsonString
    some (ci, lo)
  | _ => none

/-- `Params` of the generated `"initialized"` arm (no fields). -/
def decodeInitializedParams : Json → Option Unit
  | .obj _ => some ()
  | _ => none

/-- `Params` of the generated `"textDocument/didOpen"` arm. -/
def decodeDidOpenParams : Json → Option TextDocumentItem
  | .obj fs => getField fs (str "textDocument") >>= decodeTextDocumentItem
  | _ => none

/-- `Params` of the generated `"textDocument/didChange"` arm. -/
def decodeDidChangeParams :
    Json → Option (TextDocumentIdentifier × List TextDocumentContentChangeEvent)
  | .obj fs => do
    let td ← getField fs (str "textDocument") >>= decodeTextDocumentIdentifier
    let cc ← getField fs (str "contentChanges") >>= decodeContentChanges
    some (td, cc)
  | _ => none

/-- `Params` of the generated `"textDocument/didClose"` arm. -/
def decodeDidCloseParams : Json → Option TextDocumentIdentifier
  | .obj fs => getField fs (str "textDocument") >>= decodeTextDocumentIdentifier
  | _ => none

/-- `Params` of the generated `"textDocument/hover"` arm. -/
def decodeHoverParams : Json → Option (TextDocumentIdentifier × Position)
  | .obj fs => do
    let td ← getField fs (str "textDocument") >>= decodeTextDocumentIdentifier
    let pos ← getField fs (str "position") >>= decodePosition
    some (td, pos)
  | _ => none

/-! ## serde serialization of handler results (`serde_json::to_value`)

`serde_json`'s default map is a `BTreeMap`, so object keys appear in
sorted order. -/

def InitializeResult.toJson (r : InitializeResult) : Json :=
  .obj [(str "capabilities", .obj
          [(str "hoverProvider", .bool r.capabilities.hover_provider),
           (str "textDocumentSync", .obj
             [(str "change", .num r.capabilities.text_document_sync.change),
              (str "openClose", .bool r.capabilities.text_document_sync.open_close)])]),
        (str "serverInfo", .obj
          [(str "name", .str r.server_info.name),
           (str "version", .str r.server_info.version)])]

def Hover.toJson (h : Hover) : Json :=
  .obj [(str "contents", .obj
          [(str "kind", .str h.contents.kind),
           (str "value", .str h.contents.value)])]

/-! ## Server state and handlers (`main.rs` lines 319-392)

`State`'s `stdin`/`stdout` handles are process plumbing outside the
embedding; only the document map is modelled.  The `HashMap` is an
association list with unique keys.  A handler panic (`expect`,
out-of-bounds indexing) is the `.error` case of `Except Str _`. -/

structure State where
  text_documents : List (Str × TextDocument)

def mapGet (m : List (Str × TextDocument)) (k : Str) : Option TextDocument :=
  (m.find? fun p => decide (p.1 = k)).map (·.2)

/-- Write through a `get_mut` reference: replace the value at an existing
key. -/
def mapSet (m : List (Str × TextDocument)) (k : Str) (v : TextDocument) :
    List (Str × TextDocument) :=
  match m with
  | [] => []
  | (k', v') :: rest => if k' = k then (k', v) :: rest else (k', v') :: mapSet rest k v

/-- `HashMap::insert`: replace an existing binding, else add one. -/
def mapInsert (m : List (Str × TextDocument)) (k : Str) (v : TextDocument) :
    List (Str × TextDocument) :=
  match m with
  | [] => [(k, v)]
  | (k', v') :: rest => if k' = k then (k', v) :: rest else (k', v') :: mapInsert rest k v

/-- `HashMap::remove` (the return value is discarded by the source). -/
def mapRemove (m : List (Str × TextDocument)) (k : Str) : List (Str × TextDocument) :=
  match m with
  | [] => []
  | (k', v') :: rest => if k' = k then rest else (k', v') :: mapRemove rest k

/-- `Router::initialize` (`main.rs` lines 324-339; the source name is a
Lean keyword). -/
def initializeRequest (_s : State) (_client_info : Option ClientInfo) (_locale : Option Str) :
    Except ResponseError InitializeResult :=
  .ok { capabilities :=
          { text_document_sync := { open_close := true, change := 2 },
            hover_provider := true },
        server_info := { name := str "Descend LSP", version := str "1.0.0" } }

/-- `Router::initialized` (`main.rs` lines 341-343). -/
def initialized (s : State) : State := s

/-- `Router::did_open_text_document` (`main.rs` lines 345-351). -/
def did_open_text_document (s : State) (text_document : TextDocumentItem) : State :=
  { s with text_documents :=
      mapInsert s.text_documents text_document.uri ⟨splitCRLF text_document.text⟩ }

/-- The per-change loop of `Router::did_change_text_document`: each change
looks the document up again (panics with `Unknown document "uri"` when the
URI is absent) and edits it in place. -/
def didChangeLoop (uri : Str) (changes : List TextDocumentContentChangeEvent)
    (m : List (Str × TextDocument)) : Except Str (List (Str × TextDocument)) :=
  match changes with
  | [] => .ok m
  | ch :: rest =>
    match mapGet m uri with
    | none => .error (str "Unknown document \"" ++ uri ++ str "\"")
    | some doc => didChangeLoop uri rest (mapSet m uri (doc.edit ch.range ch.text))

/-- `Router::did_change_text_document` (`main.rs` lines 353-360). -/
def did_change_text_document (s : State) (text_document : TextDocumentIdentifier)
    (content_changes : List TextDocumentContentChangeEvent) : Except Str State :=
  (didChangeLoop text_document.uri content_changes s.text_documents).map
    fun m => { s with text_documents := m }

/-- `Router::did_close_text_document` (`main.rs` lines 362-366). -/
def did_close_text_document (s : State) (text_document : TextDocumentIdentifier) : State :=
  { s with text_documents := mapRemove s.text_documents text_document.uri }

/-- `Router::hover` (`main.rs` lines 368-378): panics on an unknown URI
(`expect`) and on an out-of-bounds line or character index; otherwise
returns the tail of the addressed line. -/
def hover (s : State) (text_document : TextDocumentIdentifier) (position : Position) :
    Except Str (Except ResponseError Hover) :=
  match mapGet s.text_documents text_document.uri with
  | none => .error (str "Unknown document \"" ++ text_document.uri ++ str "\"")
  | some doc =>
    if position.line < doc.lines.length then
      let line := doc.lines.getD position.line []
      if position.character ≤ line.length then
        .ok (.ok ⟨⟨str "plaintext", line.drop position.character⟩⟩)
      else .error (str "byte index out of bounds")
    else .error (str "index out of bounds")

/-! ## Generated dispatch (`route_msg`, `router_macro/src/lib.rs`)

One arm per `#[route(...)]` method, in trait order: request arms for the
two functions with a return type (`initialize`, `textDocument/hover`),
notification arms for the four without.  Params-deserialization failure is
an `expect` — a panic.  The final `Except Str` layer carries panics; the
`State` component carries the `&mut` effects. -/

def route_msg (router_inst : State) (message : Message) :
    Except Str (State × Option ResponseMessage) :=
  match message with
  | .Request request =>
    if request.method = str "initialize" then
      match decodeInitializeParams request.params with
      | none => .error (str "Error while deserializing params!")
      | some (ci, lo) =>
        match initializeRequest router_inst ci lo with
        | .ok response =>
          .ok (router_inst, some
            { jsonrpc := request.jsonrpc, id := request.id,
              result := some response.toJson, error := none })
        | .error e =>
          .ok (router_inst, some
            { jsonrpc := request.jsonrpc, id := request.id,
              result := none, error := some e })
    else if request.method = str "textDocument/hover" then
      match decodeHoverParams request.params with
      | none => .error (str "Error while deserializing params!")
      | some (td, pos) =>
        match hover router_inst td pos with
        | .error p => .error p
        | .ok (.ok response) =>
          .ok (router_inst, some
            { jsonrpc := request.jsonrpc, id := request.id,
              result := some response.toJson, error := none })
        | .ok (.error e) =>
          .ok (router_inst, some
            { jsonrpc := request.jsonrpc, id := request.id,
              result := none, error := some e })
    else
      .ok (router_inst, some
        { jsonrpc := request.jsonrpc, id := request.id, result := none,
          error := some
            { code := ResponseError.METHOD_NOT_FOUND,
              message := str "Unhandled request " ++ request.method ++ str "!",
              data := none } })
  | .Notification notification =>
    if notification.method = str "initialized" then
      match decodeInitializedParams notification.params with
      | none => .error (str "Error while deserializing params!")
      | some _ => .ok (initialized router_inst, none)
    else if notification.method = str "textDocument/didOpen" then
      match decodeDidOpenParams notification.params with
      | none => .error (str "Error while deserializing params!")
      | some td => .ok (did_open_text_document router_inst td, none)
    else if notification.method = str "textDocument/didChange" then
      match decodeDidChangeParams notification.params with
      | none => .error (str "Error while deserializing params!")
      | some (td, cc) =>
        match did_change_text_document router_inst td cc with
        | .error p => .error p
        | .ok s' => .ok (s', none)
    else if notification.method = str "textDocument/didClose" then
      match decodeDidCloseParams notification.params with
      | none => .error (str "Error while deserializing params!")
      | some td => .ok (did_close_text_document router_inst td, none)
    else
      -- eprintln diagnostic only, no response
      .ok (router_inst, none)
  | .Response _ => .ok (router_inst, none)

/-- `get_response` (`main.rs` lines 394-404): framing errors become an
`InternalError` response with a null id; a JSON decode failure hits
`.unwrap()` — a panic. -/
def get_response (message : Except Str RawMessage) (server : State) :
    Except Str (State × Option ResponseMessage) :=
  match message with
  | .ok message =>
    match Message.from_raw message with
    | .ok m => route_msg server m
    | .error e => .error (str "called Result::unwrap() on an Err value: " ++ e)
  | .error error =>
    .ok (server, some (ResponseMessage.mkError (MsgId.AsJson Json.null)
      ResponseError.INTERNAL_ERROR error))

/-- `RawMessage::from` (`main.rs` lines 153-156): serialize the JSON value;
`content_length` is `String::len`, the byte count of the serialization. -/
def RawMessage.from (content : Json) : RawMessage :=
  let c := Json.toString content
  { content_length := strByteLen c, content_type := [], content := c }

/-! ## List helper lemmas -/

theorem listAppend_insertIdx {α : Type} (A B : List α) (x : α) (n : Nat)
    (h : A.length = n) : (A ++ B).insertIdx n x = A ++ x :: B := by
  induction A generalizing n with
  | nil => subst h; rfl
  | cons a A ih =>
    cases n with
    | zero => simp at h
    | succ n =>
      simp only [List.length_cons, Nat.succ.injEq] at h
      simp [List.insertIdx_succ_cons, ih _ h]

theorem listAppend_set {α : Type} (A C : List α) (b x : α) (n : Nat)
    (h : A.length = n) : (A ++ b :: C).set n x = A ++ x :: C := by
  induction A generalizing n with
  | nil => subst h; rfl
  | cons a A ih =>
    cases n with
    | zero => simp at h
    | succ n =>
      simp only [List.length_cons, Nat.succ.injEq] at h
      simp [List.set, ih _ h]

theorem listAppend_getD {α : Type} (A C : List α) (b d : α) (n : Nat)
    (h : A.length = n) : (A ++ b :: C).getD n d = b := by
  induction A generalizing n with
  | nil => subst h; rfl
  | cons a A ih =>
    cases n with
    | zero => simp at h
    | succ n =>
      simp only [List.length_cons, Nat.succ.injEq] at h
      simpa using ih _ h

theorem listAppend_eraseIdx {α : Type} (A C : List α) (b : α) (n : Nat)
    (h : A.length = n) : (A ++ b :: C).eraseIdx n = A ++ C := by
  induction A generalizing n with
  | nil => subst h; rfl
  | cons a A ih =>
    cases n with
    | zero => simp at h
    | succ n =>
      simp only [List.length_cons, Nat.succ.injEq] at h
      simp [List.eraseIdx, ih _ h]

theorem list_decompose {α : Type} (L : List α) (n : Nat) (d : α) (h : n < L.length) :
    L = L.take n ++ L.getD n d :: L.drop (n + 1) := by
  induction L generalizing n with
  | nil => simp at h
  | cons a L ih =>
    cases n with
    | zero => simp
    | succ n =>
      simp only [List.length_cons, Nat.succ_lt_succ_iff] at h
      simpa using ih n h

theorem list_set_getD_self {α : Type} (L : List α) (n : Nat) (d : α) :
    L.set n (L.getD n d) = L := by
  induction L generalizing n with
  | nil => rfl
  | cons a L ih =>
    cases n with
    | zero => rfl
    | succ n => simpa using ih n

/-! ## Closed forms for `erase` and `insert` -/

theorem eraseStep_first (r : Range) (ct : Nat) (L : List Str) (h : ct - 1 ≠ 0) :
    eraseStep r ct 0 L = L.set r.start.line ((L.getD r.start.line []).take r.start.character) := by
  have h' : ¬ ((0 : Nat) = ct - 1) := fun e => h e.symm
  simp [eraseStep, h']

theorem eraseStep_mid (r : Range) (ct c : Nat) (L : List Str) (h0 : c ≠ 0) (h1 : c ≠ ct - 1) :
    eraseStep r ct c L = L.eraseIdx (r.start.line + 1) := by
  simp [eraseStep, h0, h1]

theorem eraseStep_last (r : Range) (ct c : Nat) (L : List Str) (h0 : c ≠ 0) (h1 : c = ct - 1) :
    eraseStep r ct c L =
      (L.eraseIdx (r.start.line + 1)).set r.start.line
        ((L.eraseIdx (r.start.line + 1)).getD r.start.line [] ++
          (L.getD (r.start.line + 1) []).drop r.«end».character) := by
  subst h1
  simp [eraseStep, h0]

/-- Running the erase loop from counter `c ≥ 1` over the remaining middle
lines `mids` and the final line `lastline`: the middles are removed one by
one at index `start.line + 1`, then the tail of `lastline` is appended to
the line at `start.line`. -/
theorem eraseLoop_tailrun (r : Range) (c_total : Nat) :
    ∀ (mids : List Str) (lastline : Str) (c : Nat) (A C : List Str),
      0 < c → c + mids.length + 1 = c_total → A.length = r.start.line + 1 →
      eraseLoop r c_total c (mids.length + 1) (A ++ mids ++ lastline :: C) =
        (A ++ C).set r.start.line
          ((A ++ C).getD r.start.line [] ++ lastline.drop r.«end».character) := by
  intro mids
  induction mids with
  | nil =>
    intro lastline c A C hc hct hA
    simp only [List.length_nil, Nat.add_zero] at hct
    simp only [List.length_nil, List.append_nil, List.nil_append]
    rw [eraseLoop, eraseLoop]
    rw [eraseStep_last r c_total c _ (by omega) (by omega)]
    rw [listAppend_eraseIdx A C lastline (r.start.line + 1) hA,
        listAppend_getD A C lastline [] (r.start.line + 1) hA]
  | cons m mids ih =>
    intro lastline c A C hc hct hA
    simp only [List.length_cons] at hct
    simp only [List.length_cons]
    rw [eraseLoop]
    rw [eraseStep_mid r c_total c _ (by omega) (by omega)]
    have he : (A ++ (m :: mids) ++ lastline :: C).eraseIdx (r.start.line + 1) =
        A ++ mids ++ lastline :: C := by
      have h2 := listAppend_eraseIdx A (mids ++ lastline :: C) m (r.start.line + 1) hA
      simpa using h2
    rw [he]
    exact ih lastline (c + 1) A C (by omega) (by omega) hA

theorem list_drop_decompose {α : Type} (L : List α) (n : Nat) (d : α) (h : n < L.length) :
    L.drop n = L.getD n d :: L.drop (n + 1) := by
  induction L generalizing n with
  | nil => simp at h
  | cons a L ih =>
    cases n with
    | zero => simp
    | succ n =>
      simp only [List.length_cons, Nat.succ_lt_succ_iff] at h
      simpa using ih n h

/-- `erase` on a range confined to a single line removes the addressed
character span from that line. -/
theorem erase_single_spec (d : TextDocument) (r : Range)
    (h : r.start.line = r.«end».line) :
    (d.erase r).lines = d.lines.set r.start.line
      ((d.lines.getD r.start.line []).take r.start.character ++
       (d.lines.getD r.start.line []).drop r.«end».character) := by
  have hct : r.«end».line - r.start.line + 1 = 1 := by omega
  show eraseLoop r (r.«end».line - r.start.line + 1) 0 (r.«end».line - r.start.line + 1) d.lines = _
  rw [hct, eraseLoop, eraseLoop]
  simp [eraseStep, replRange, h]

/-- `erase` on a range spanning several lines: the start line is truncated,
the strictly-interior lines disappear, and the tail of the end line is
appended to the truncated start line. -/
theorem erase_multi_spec (d : TextDocument) (r : Range)
    (h1 : r.start.line < r.«end».line) (h2 : r.«end».line < d.lines.length) :
    (d.erase r).lines =
      d.lines.take r.start.line ++
      ((d.lines.getD r.start.line []).take r.start.character ++
        (d.lines.getD r.«end».line []).drop r.«end».character) ::
      d.lines.drop (r.«end».line + 1) := by
  set L := d.lines with hL
  set sl := r.start.line with hsl
  set el := r.«end».line with hel
  set m := el - sl - 1 with hm
  have hslL : sl < L.length := by omega
  have hct : el - sl + 1 = m + 2 := by omega
  have htake : (L.take sl).length = sl := by rw [List.length_take]; omega
  -- unfold the first loop iteration
  show eraseLoop r (el - sl + 1) 0 (el - sl + 1) L = _
  rw [hct, eraseLoop, eraseStep_first r (m + 2) L (by omega)]
  -- present the state after the first iteration in `A ++ mids ++ last :: C` form
  set x := (L.getD sl []).take r.start.character with hx
  set mids := (L.drop (sl + 1)).take m with hmids
  have hmlen : mids.length = m := by
    rw [hmids, List.length_take, List.length_drop]; omega
  have hsetx : L.set sl x = L.take sl ++ x :: L.drop (sl + 1) := by
    conv_lhs => rw [list_decompose L sl [] hslL]
    exact listAppend_set _ _ _ _ _ htake
  have hdrop : L.drop (sl + 1) = mids ++ L.getD el [] :: L.drop (el + 1) := by
    conv_lhs => rw [← List.take_append_drop m (L.drop (sl + 1))]
    rw [List.drop_drop]
    have h3 : sl + 1 + m = el := by omega
    rw [h3, list_drop_decompose L el [] h2]
  have hstate : L.set sl x = (L.take sl ++ [x]) ++ mids ++ L.getD el [] :: L.drop (el + 1) := by
    rw [hsetx, hdrop]; simp
  rw [hstate]
  have hAlen : (L.take sl ++ [x]).length = sl + 1 := by
    rw [List.length_append, htake]; rfl
  have hrun := eraseLoop_tailrun r (m + 2) mids (L.getD el []) 1
      (L.take sl ++ [x]) (L.drop (el + 1)) (by omega) (by omega) hAlen
  rw [hmlen] at hrun
  rw [hrun]
  have hAC : (L.take sl ++ [x]) ++ L.drop (el + 1) = L.take sl ++ x :: L.drop (el + 1) := by simp
  rw [hAC, listAppend_getD _ _ _ _ _ htake, listAppend_set _ _ _ _ _ htake]

theorem insertStep_mid (p : Position) (count i : Nat) (t : Str) (L : List Str)
    (h0 : i ≠ 0) (h1 : i ≠ count - 1) :
    insertStep p count i t L = L.insertIdx (p.line + i) t := by
  simp [insertStep, h0, h1]

theorem insertStep_last (p : Position) (count i : Nat) (t : Str) (L : List Str)
    (h0 : i ≠ 0) (h1 : i = count - 1) :
    insertStep p count i t L =
      L.set (p.line + i) (insertStr (L.getD (p.line + i) []) 0 t) := by
  subst h1
  simp [insertStep, h0]

theorem insertStep_first_spec (p : Position) (count : Nat) (t : Str) (L : List Str)
    (hc : count - 1 ≠ 0) (hpl : p.line < L.length) :
    insertStep p count 0 t L =
      (L.take p.line ++ [(L.getD p.line []).take p.character ++ t]) ++
        ((L.getD p.line []).drop p.character) :: L.drop (p.line + 1) := by
  have h' : ¬ ((0 : Nat) = count - 1) := fun e => hc e.symm
  have htake : (L.take p.line).length = p.line := by rw [List.length_take]; omega
  have e1 : L.eraseIdx p.line = L.take p.line ++ L.drop (p.line + 1) := by
    conv_lhs => rw [list_decompose L p.line [] hpl]
    exact listAppend_eraseIdx _ _ _ _ htake
  simp only [insertStep, h', and_false, if_false, if_true, eq_self_iff_true, if_pos, and_true,
    not_true, false_and]
  rw [e1]
  rw [listAppend_insertIdx (L.take p.line) (L.drop (p.line + 1))
        ((L.getD p.line []).take p.character) p.line htake]
  rw [listAppend_getD (L.take p.line) (L.drop (p.line + 1))
        ((L.getD p.line []).take p.character) [] p.line htake]
  rw [listAppend_set (L.take p.line) (L.drop (p.line + 1))
        ((L.getD p.line []).take p.character)
        ((L.getD p.line []).take p.character ++ t) p.line htake]
  have hA2 : (L.take p.line ++ [(L.getD p.line []).take p.character ++ t]).length =
      p.line + 1 := by
    rw [List.length_append, htake]; rfl
  rw [show L.take p.line ++ ((L.getD p.line []).take p.character ++ t) :: L.drop (p.line + 1)
        = (L.take p.line ++ [(L.getD p.line []).take p.character ++ t]) ++ L.drop (p.line + 1)
      by simp]
  rw [listAppend_insertIdx _ _ _ _ hA2]

/-- Running the insert loop from index `i ≥ 1`: each middle segment is
spliced in before the pending tail line, and the last segment is prepended
to the tail line. -/
theorem insertLoop_tailrun (p : Position) (count : Nat) :
    ∀ (mid : List Str) (slast tail : Str) (i : Nat) (A C : List Str),
      0 < i → i + mid.length + 1 = count → A.length = p.line + i →
      insertLoop p count i (mid ++ [slast]) (A ++ tail :: C) =
        A ++ mid ++ (slast ++ tail) :: C := by
  intro mid
  induction mid with
  | nil =>
    intro slast tail i A C hi hcount hA
    simp only [List.length_nil, Nat.add_zero] at hcount
    simp only [List.nil_append, List.append_nil]
    show insertLoop p count (i + 1) [] (insertStep p count i slast (A ++ tail :: C)) = _
    simp only [insertLoop]
    rw [insertStep_last p count i _ _ (by omega) (by omega)]
    rw [listAppend_getD _ _ _ _ _ hA, listAppend_set _ _ _ _ _ hA]
    simp [insertStr]
  | cons m2 mid ih =>
    intro slast tail i A C hi hcount hA
    simp only [List.length_cons] at hcount
    show insertLoop p count (i + 1) (mid ++ [slast]) (insertStep p count i m2 (A ++ tail :: C)) = _
    rw [insertStep_mid p count i _ _ (by omega) (by omega)]
    rw [listAppend_insertIdx _ _ _ _ hA]
    have hA' : (A ++ [m2]).length = p.line + (i + 1) := by
      rw [List.length_append, hA]; rfl
    have := ih slast tail (i + 1) (A ++ [m2]) C (by omega) (by omega) hA'
    simp only [List.append_assoc, List.singleton_append] at this ⊢
    exact this

/-- `insert` with a text that splits into at least two segments: the
addressed line is broken at the position, the first segment is appended to
its head, interior segments become their own lines, and the last segment is
prepended to the tail. -/
theorem insert_multi_spec (d : TextDocument) (p : Position) (text s0 slast : Str)
    (mid : List Str) (hsplit : splitCRLF text = s0 :: mid ++ [slast])
    (hpl : p.line < d.lines.length) :
    (d.insert p text).lines =
      d.lines.take p.line ++
      ((d.lines.getD p.line []).take p.character ++ s0) ::
      mid ++
      (slast ++ (d.lines.getD p.line []).drop p.character) ::
      d.lines.drop (p.line + 1) := by
  set L := d.lines with hL
  have hcount : (splitCRLF text).length = mid.length + 2 := by rw [hsplit]; simp
  show insertLoop p (splitCRLF text).length 0 (splitCRLF text) L = _
  rw [hcount]
  conv_lhs => rw [hsplit]
  show insertLoop p (mid.length + 2) 1 (mid ++ [slast])
      (insertStep p (mid.length + 2) 0 s0 L) = _
  rw [insertStep_first_spec p (mid.length + 2) s0 L (by omega) hpl]
  have hA : (L.take p.line ++ [(L.getD p.line []).take p.character ++ s0]).length =
      p.line + 1 := by
    rw [List.length_append, List.length_take]
    simp; omega
  rw [insertLoop_tailrun p (mid.length + 2) mid slast _ 1 _ _ (by omega) (by omega) hA]
  simp

/-- `insert` with a text that has no line break: splice it into the
addressed line at the addressed character. -/
theorem insert_single_spec (d : TextDocument) (p : Position) (t s : Str)
    (hsplit : splitCRLF t = [s]) :
    (d.insert p t).lines =
      d.lines.set p.line (insertStr (d.lines.getD p.line []) p.character s) := by
  show insertLoop p (splitCRLF t).length 0 (splitCRLF t) d.lines = _
  rw [hsplit]
  simp [insertLoop, insertStep]

theorem textDocument_eq_of_lines (a b : TextDocument) (h : a.lines = b.lines) : a = b := by
  cases a; cases b; simpa using h

/-- C5: `erase` removes a single-line span `[start.character, end.character)`
from its line; a multi-line range truncates the start line to
`[0, start.character)`, removes the strictly-interior lines, and appends the
end line's tail `[end.character, …)` to the truncated start line; and the
concrete scenario from the spec holds. -/
theorem claim_C5 :
    (∀ (d : TextDocument) (r : Range),
        r.start.line = r.«end».line →
        r.start.line < d.lines.length →
        r.start.character ≤ r.«end».character →
        r.«end».character ≤ (d.lines.getD r.start.line []).length →
        (d.erase r).lines = d.lines.set r.start.line
          ((d.lines.getD r.start.line []).take r.start.character ++
           (d.lines.getD r.start.line []).drop r.«end».character)) ∧
    (∀ (d : TextDocument) (r : Range),
        r.start.line < r.«end».line →
        r.«end».line < d.lines.length →
        r.start.character ≤ (d.lines.getD r.start.line []).length →
        r.«end».character ≤ (d.lines.getD r.«end».line []).length →
        (d.erase r).lines =
          d.lines.take r.start.line ++
          ((d.lines.getD r.start.line []).take r.start.character ++
            (d.lines.getD r.«end».line []).drop r.«end».character) ::
          d.lines.drop (r.«end».line + 1)) ∧
    TextDocument.erase ⟨[str "01234", str "56789", str "abcde"]⟩ ⟨⟨0, 3⟩, ⟨2, 3⟩⟩ =
      ⟨[str "012de"]⟩ :=
  ⟨fun d r h _ _ _ => erase_single_spec d r h,
   fun d r h1 h2 _ _ => erase_multi_spec d r h1 h2,
   by decide⟩

theorem claim_C5_witness :
    (TextDocument.erase ⟨[str "01234", str "56789", str "abcde"]⟩ ⟨⟨0, 3⟩, ⟨2, 3⟩⟩).lines =
      [str "012de"] ∧
    (TextDocument.erase ⟨[str "hello"]⟩ ⟨⟨0, 1⟩, ⟨0, 3⟩⟩).lines = [str "hlo"] :=
  ⟨(claim_C5.2.1 ⟨[str "01234", str "56789", str "abcde"]⟩ ⟨⟨0, 3⟩, ⟨2, 3⟩⟩
      (by decide) (by decide) (by decide) (by decide)).trans (by decide),
   (claim_C5.1 ⟨[str "hello"]⟩ ⟨⟨0, 1⟩, ⟨0, 3⟩⟩
      rfl (by decide) (by decide) (by decide)).trans (by decide)⟩

/-- C6: `insert` with a text splitting into two or more segments breaks the
addressed line into head `[0, character)` and tail `[character, …)`; the
addressed line becomes head + first segment, each interior segment becomes
its own line in order, and the last segment is prepended to the tail, which
follows the interior lines; and the concrete scenario from the spec holds. -/
theorem claim_C6 :
    (∀ (d : TextDocument) (p : Position) (text s0 slast : Str) (mid : List Str),
        splitCRLF text = s0 :: mid ++ [slast] →
        p.line < d.lines.length →
        p.character ≤ (d.lines.getD p.line []).length →
        (d.insert p text).lines =
          d.lines.take p.line ++
          ((d.lines.getD p.line []).take p.character ++ s0) ::
          mid ++
          (slast ++ (d.lines.getD p.line []).drop p.character) ::
          d.lines.drop (p.line + 1)) ∧
    TextDocument.insert ⟨[str "012de"]⟩ ⟨0, 3⟩ (str "34\r\n56789\r\nabc") =
      ⟨[str "01234", str "56789", str "abcde"]⟩ :=
  ⟨fun d p text s0 slast mid h1 h2 _ => insert_multi_spec d p text s0 slast mid h1 h2,
   by decide⟩

theorem claim_C6_witness :
    (TextDocument.insert ⟨[str "012de"]⟩ ⟨0, 3⟩ (str "34\r\n56789\r\nabc")).lines =
      [str "01234", str "56789", str "abcde"] :=
  (claim_C6.1 ⟨[str "012de"]⟩ ⟨0, 3⟩ (str "34\r\n56789\r\nabc")
      (str "34") (str "abc") [str "56789"]
      (by decide) (by decide) (by decide)).trans (by decide)

/-- C7: `edit(range, text)` is exactly `erase(range)` followed by
`insert(range.start, text)`, and on a well-formed in-bounds range
`edit(range, "")` coincides with `erase(range)`. -/
theorem claim_C7 :
    (∀ (d : TextDocument) (r : Range) (text : Str),
        d.edit r text = (d.erase r).insert r.start text) ∧
    (∀ (d : TextDocument) (r : Range),
        r.start.line ≤ r.«end».line →
        r.«end».line < d.lines.length →
        r.start.character ≤ (d.lines.getD r.start.line []).length →
        r.«end».character ≤ (d.lines.getD r.«end».line []).length →
        (r.start.line = r.«end».line → r.start.character ≤ r.«end».character) →
        d.edit r [] = d.erase r) := by
  constructor
  · intro d r text
    rfl
  · intro d r _ _ _ _ _
    apply textDocument_eq_of_lines
    have h := insert_single_spec (d.erase r) r.start [] [] rfl
    have h2 : insertStr ((d.erase r).lines.getD r.start.line []) r.start.character [] =
        (d.erase r).lines.getD r.start.line [] := by
      simp [insertStr]
    rw [h2, list_set_getD_self] at h
    exact h

theorem claim_C7_witness :
    TextDocument.edit ⟨[str "01234", str "56789", str "abcde"]⟩ ⟨⟨0, 3⟩, ⟨2, 3⟩⟩ [] =
      TextDocument.erase ⟨[str "01234", str "56789", str "abcde"]⟩ ⟨⟨0, 3⟩, ⟨2, 3⟩⟩ :=
  claim_C7.2 ⟨[str "01234", str "56789", str "abcde"]⟩ ⟨⟨0, 3⟩, ⟨2, 3⟩⟩
    (by decide) (by decide) (by decide) (by decide) (by decide)

/-! ## Framer lemmas -/

theorem dropWhile_all {p : Nat → Bool} (xs ys : List Nat) (h : ∀ c ∈ xs, p c = true) :
    List.dropWhile p (xs ++ ys) = List.dropWhile p ys := by
  induction xs with
  | nil => rfl
  | cons a xs ih =>
    simp only [List.cons_append, List.dropWhile_cons, h a (by simp)]
    exact ih fun c hc => h c (by simp [hc])

theorem dropWhile_nil_of_all {p : Nat → Bool} (xs : List Nat) (h : ∀ c ∈ xs, p c = true) :
    List.dropWhile p xs = [] := by
  have := dropWhile_all xs [] h
  simpa using this

/-- `str::trim` on whitespace, then a whitespace-free core, then whitespace. -/
theorem trim_core (pre core post : Str)
    (hpre : ∀ c ∈ pre, wsB c = true) (hpost : ∀ c ∈ post, wsB c = true)
    (hcore : ∀ c ∈ core, wsB c = false) :
    trimStr (pre ++ core ++ post) = core := by
  rw [trimStr, List.append_assoc, dropWhile_all pre (core ++ post) hpre]
  cases core with
  | nil =>
    simp only [List.nil_append]
    rw [dropWhile_nil_of_all post hpost]
    rfl
  | cons a core' =>
    rw [List.cons_append, List.dropWhile_cons, hcore a (by simp)]
    simp only [Bool.false_eq_true, if_false]
    rw [show (a :: (core' ++ post)).reverse = post.reverse ++ (core'.reverse ++ [a]) by simp]
    rw [dropWhile_all post.reverse _ (fun c hc => hpost c (by simpa using hc))]
    have : List.dropWhile wsB (core'.reverse ++ [a]) = core'.reverse ++ [a] := by
      cases hrev : core'.reverse with
      | nil =>
        simp only [List.nil_append, List.dropWhile_cons, hcore a (by simp)]
        rfl
      | cons h t =>
        have hh : h ∈ core' := by
          have : h ∈ core'.reverse := by rw [hrev]; simp
          simpa using this
        rw [List.cons_append, List.dropWhile_cons, hcore h (by simp [hh])]
        rfl
    rw [this]
    simp

theorem mem_dropWhile_of_neg {p : Nat → Bool} (x : Nat) (s : List Nat)
    (hx : p x = false) (hmem : x ∈ s) : x ∈ s.dropWhile p := by
  induction s with
  | nil => simp at hmem
  | cons a s ih =>
    rw [List.dropWhile_cons]
    by_cases ha : p a = true
    · rw [ha]
      simp only [if_true]
      rcases List.mem_cons.mp hmem with h | h
      · subst h; rw [hx] at ha; simp at ha
      · exact ih h
    · simp only [Bool.not_eq_true] at ha
      rw [ha]
      simpa using hmem

/-- A string containing a non-whitespace character does not trim to empty. -/
theorem trim_ne_nil (x : Nat) (s : Str) (hx : wsB x = false) (hmem : x ∈ s) :
    trimStr s ≠ [] := by
  intro hnil
  rw [trimStr] at hnil
  have h1 : x ∈ s.dropWhile wsB := mem_dropWhile_of_neg x s hx hmem
  have h2 : x ∈ (s.dropWhile wsB).reverse := by simpa using h1
  have h3 : x ∈ ((s.dropWhile wsB).reverse.dropWhile wsB) := mem_dropWhile_of_neg x _ hx h2
  rw [show ((s.dropWhile wsB).reverse.dropWhile wsB) = (((s.dropWhile wsB).reverse.dropWhile wsB).reverse).reverse by simp, hnil] at h3
  simp at h3

theorem splitAtNL_append (xs rest : List Nat) (h : 10 ∉ xs) :
    splitAtNL (xs ++ 10 :: rest) = (xs ++ [10], rest) := by
  induction xs with
  | nil => rfl
  | cons a xs ih =>
    have ha : a ≠ 10 := fun e => h (by simp [e])
    simp only [List.cons_append, splitAtNL, if_neg ha, List.append_eq]
    rw [ih (fun hm => h (List.mem_cons_of_mem a hm))]

theorem splitColon_append (A B : Str) (h : 58 ∉ A) :
    splitColon (A ++ 58 :: B) = (A, some (B.takeWhile (fun x => x != 58))) := by
  induction A with
  | nil => rfl
  | cons a A ih =>
    have ha : a ≠ 58 := fun e => h (by simp [e])
    simp only [List.cons_append, splitColon, if_neg ha, List.append_eq]
    rw [ih (fun hm => h (List.mem_cons_of_mem a hm))]

theorem splitColon_none (A : Str) (h : 58 ∉ A) : splitColon A = (A, none) := by
  induction A with
  | nil => rfl
  | cons a A ih =>
    have ha : a ≠ 58 := fun e => h (by simp [e])
    simp only [splitColon, if_neg ha]
    rw [ih (fun hm => h (List.mem_cons_of_mem a hm))]

theorem takeWhile_ne58_all (B : Str) (h : 58 ∉ B) :
    B.takeWhile (fun x => x != 58) = B := by
  induction B with
  | nil => rfl
  | cons b B ih =>
    have hb : b ≠ 58 := fun e => h (by simp [e])
    rw [List.takeWhile_cons]
    have hbt : (b != 58) = true := by simp [hb]
    rw [hbt]
    simp only [if_true]
    rw [ih (fun hm => h (List.mem_cons_of_mem b hm))]

theorem parseUsize_digits (d : Str) (hd : d ≠ []) (hdig : ∀ c ∈ d, 48 ≤ c ∧ c ≤ 57) :
    parseUsize d = .ok (natVal d) := by
  have hhead : d.headD 0 ≠ 43 := by
    cases d with
    | nil => simp at hd
    | cons a d' =>
      have := hdig a (List.mem_cons_self a d')
      simp only [List.headD_cons]
      omega
  have hall : (d.all fun c => 48 ≤ c && c ≤ 57) = true :=
    List.all_eq_true.mpr fun c hc => by
      have := hdig c hc
      simp only [Bool.and_eq_true, decide_eq_true_eq]
      omega
  rw [parseUsize, if_neg hd]
  simp only [if_neg hhead]
  rw [if_neg hd, if_pos hall]

theorem utf8Decode_ascii (l : List Nat) (h : ∀ c ∈ l, c < 0x80) :
    utf8Decode l = some l := by
  induction l with
  | nil => rfl
  | cons a l ih =>
    have ha : a < 0x80 := h a (List.mem_cons_self a l)
    show utf8DecodeF (a :: l).length (a :: l) = _
    rw [List.length_cons, utf8DecodeF, if_pos ha]
    have hf : utf8DecodeF l.length l = utf8Decode l := rfl
    rw [hf, ih fun c hc => h c (List.mem_cons_of_mem a hc)]
    rfl

theorem utf8Encode_ascii (l : List Nat) (h : ∀ c ∈ l, c < 0x80) :
    utf8Encode l = l := by
  induction l with
  | nil => rfl
  | cons a l ih =>
    have he : utf8Encode (a :: l) = utf8EncodeChar a ++ utf8Encode l := by simp [utf8Encode]
    rw [he, ih fun c hc => h c (List.mem_cons_of_mem a hc)]
    rw [utf8EncodeChar, if_pos (h a (List.mem_cons_self a l))]
    rfl

theorem utf8DecodeF_congr : ∀ (f1 : Nat) (bs : List Nat) (f2 : Nat),
    bs.length ≤ f1 → bs.length ≤ f2 → utf8DecodeF f1 bs = utf8DecodeF f2 bs := by
  intro f1
  induction f1 with
  | zero =>
    intro bs f2 h1 _
    have hb : bs = [] := List.eq_nil_of_length_eq_zero (Nat.le_zero.mp h1)
    subst hb
    cases f2 <;> rfl
  | succ f1 ih =>
    intro bs f2 h1 h2
    cases bs with
    | nil => cases f2 <;> rfl
    | cons b rest =>
      simp only [List.length_cons] at h1 h2
      cases f2 with
      | zero => omega
      | succ f2 =>
        rw [utf8DecodeF, utf8DecodeF]
        have hl1 : rest.tail.length = rest.length - 1 := by simp
        have hl2 : rest.tail.tail.length = rest.length - 1 - 1 := by simp
        have hl3 : rest.tail.tail.tail.length = rest.length - 1 - 1 - 1 := by simp
        split_ifs <;> first
          | rfl
          | (congr 1; apply ih <;> omega)

theorem utf8EncodeChar_1 (v : Nat) (h : v < 0x80) : utf8EncodeChar v = [v] := by
  rw [utf8EncodeChar, if_pos h]

theorem utf8EncodeChar_2 (v : Nat) (h1 : 0x80 ≤ v) (h2 : v < 0x800) :
    utf8EncodeChar v = [0xC0 + v / 64, 0x80 + v % 64] := by
  rw [utf8EncodeChar, if_neg (by omega), if_pos h2]

theorem utf8EncodeChar_3 (v : Nat) (h1 : 0x800 ≤ v) (h2 : v < 0x10000) :
    utf8EncodeChar v = [0xE0 + v / 4096, 0x80 + v / 64 % 64, 0x80 + v % 64] := by
  rw [utf8EncodeChar, if_neg (by omega), if_neg (by omega), if_pos h2]

theorem utf8EncodeChar_4 (v : Nat) (h1 : 0x10000 ≤ v) :
    utf8EncodeChar v =
      [0xF0 + v / 262144, 0x80 + v / 4096 % 64, 0x80 + v / 64 % 64, 0x80 + v % 64] := by
  rw [utf8EncodeChar, if_neg (by omega), if_neg (by omega), if_neg (by omega)]

theorem utf8Encode_cons (c : Nat) (s : Str) :
    utf8Encode (c :: s) = utf8EncodeChar c ++ utf8Encode s := by
  simp [utf8Encode]

/-- Decoding, then re-encoding, reproduces the original bytes. -/
theorem utf8_roundtrip (bs : List Nat) (s : Str) (h : utf8Decode bs = some s) :
    utf8Encode s = bs := by
  have H : ∀ (f : Nat) (bs : List Nat) (s : Str), bs.length ≤ f →
      utf8DecodeF f bs = some s → utf8Encode s = bs := by
    intro f
    induction f with
    | zero =>
      intro bs s h1 h2
      have hb : bs = [] := List.eq_nil_of_length_eq_zero (Nat.le_zero.mp h1)
      subst hb
      simp only [utf8DecodeF, Option.some.injEq] at h2
      subst h2
      rfl
    | succ f ih =>
      intro bs s h1 h2
      cases bs with
      | nil =>
        simp only [utf8DecodeF, Option.some.injEq] at h2
        subst h2
        rfl
      | cons b rest =>
        simp only [List.length_cons] at h1
        rw [utf8DecodeF] at h2
        by_cases c1b : b < 0x80
        · rw [if_pos c1b] at h2
          cases hd : utf8DecodeF f rest with
          | none => rw [hd] at h2; simp at h2
          | some s' =>
            rw [hd] at h2
            simp only [Option.map_some', Option.some.injEq] at h2
            subst h2
            rw [utf8Encode_cons, utf8EncodeChar_1 b c1b, ih rest s' (by omega) hd]
            rfl
        · rw [if_neg c1b] at h2
          by_cases c2b : b < 0xC0
          · rw [if_pos c2b] at h2; simp at h2
          · rw [if_neg c2b] at h2
            by_cases c3b : b < 0xE0
            · rw [if_pos c3b] at h2
              cases rest with
              | nil => simp at h2
              | cons c1 rest' =>
                simp only [List.length_cons, List.headD_cons, List.tail_cons] at h2
                rw [if_neg (by omega)] at h2
                by_cases hok : ok2 b c1
                · rw [if_pos hok] at h2
                  cases hd : utf8DecodeF f rest' with
                  | none => rw [hd] at h2; simp at h2
                  | some s' =>
                    rw [hd] at h2
                    simp only [Option.map_some', Option.some.injEq] at h2
                    subst h2
                    have hval : val2 b c1 = (b - 0xC0) * 64 + (c1 - 0x80) := rfl
                    obtain ⟨⟨hca, hcb⟩, hvlo⟩ := hok
                    rw [utf8Encode_cons, utf8EncodeChar_2 (val2 b c1) hvlo (by omega),
                        ih rest' s' (by simp at h1; omega) hd]
                    simp only [List.cons_append, List.nil_append, List.cons.injEq]
                    exact ⟨by omega, by omega, trivial⟩
                · rw [if_neg hok] at h2; simp at h2
            · rw [if_neg c3b] at h2
              by_cases c4b : b < 0xF0
              · rw [if_pos c4b] at h2
                cases rest with
                | nil => simp at h2
                | cons c1 rest1 =>
                  cases rest1 with
                  | nil => simp at h2
                  | cons c2 rest' =>
                    simp only [List.length_cons, List.headD_cons, List.tail_cons] at h2
                    rw [if_neg (by omega)] at h2
                    by_cases hok : ok3 b c1 c2
                    · rw [if_pos hok] at h2
                      cases hd : utf8DecodeF f rest' with
                      | none => rw [hd] at h2; simp at h2
                      | some s' =>
                        rw [hd] at h2
                        simp only [Option.map_some', Option.some.injEq] at h2
                        subst h2
                        have hval : val3 b c1 c2 =
                            (b - 0xE0) * 4096 + (c1 - 0x80) * 64 + (c2 - 0x80) := rfl
                        obtain ⟨⟨h1a, h1b⟩, ⟨h2a, h2b⟩, hvlo, _⟩ := hok
                        rw [utf8Encode_cons, utf8EncodeChar_3 (val3 b c1 c2) hvlo (by omega),
                            ih rest' s' (by simp at h1; omega) hd]
                        simp only [List.cons_append, List.nil_append, List.cons.injEq]
                        exact ⟨by omega, by omega, by omega, trivial⟩
                    · rw [if_neg hok] at h2; simp at h2
              · by_cases c5b : b < 0xF8
                · rw [if_neg c4b, if_pos c5b] at h2
                  cases rest with
                  | nil => simp at h2
                  | cons c1 rest1 =>
                    cases rest1 with
                    | nil => simp at h2
                    | cons c2 rest2 =>
                      cases rest2 with
                      | nil => simp at h2
                      | cons c3 rest' =>
                        simp only [List.length_cons, List.headD_cons,
                          List.tail_cons] at h2
                        rw [if_neg (by omega)] at h2
                        by_cases hok : ok4 b c1 c2 c3
                        · rw [if_pos hok] at h2
                          cases hd : utf8DecodeF f rest' with
                          | none => rw [hd] at h2; simp at h2
                          | some s' =>
                            rw [hd] at h2
                            simp only [Option.map_some', Option.some.injEq] at h2
                            subst h2
                            have hval : val4 b c1 c2 c3 =
                                (b - 0xF0) * 262144 + (c1 - 0x80) * 4096 +
                                (c2 - 0x80) * 64 + (c3 - 0x80) := rfl
                            obtain ⟨⟨h1a, h1b⟩, ⟨h2a, h2b⟩, ⟨h3a, h3b⟩, hvlo, hvhi⟩ := hok
                            rw [utf8Encode_cons, utf8EncodeChar_4 (val4 b c1 c2 c3) hvlo,
                                ih rest' s' (by simp at h1; omega) hd]
                            simp only [List.cons_append, List.nil_append, List.cons.injEq]
                            exact ⟨by omega, by omega, by omega, by omega, trivial⟩
                        · rw [if_neg hok] at h2; simp at h2
                · rw [if_neg c4b, if_neg c5b] at h2
                  simp at h2
  exact H bs.length bs s (Nat.le_refl _) h

theorem digit_plain (c : Nat) (h : 48 ≤ c ∧ c ≤ 57) : plainHC c := by
  refine ⟨by omega, ?_, by omega, by omega⟩
  simp only [wsB]
  simp only [Bool.or_eq_false_iff, decide_eq_false_iff_not, Bool.and_eq_false_iff]
  omega

/-- Processing one `Content-Length` header line. -/
theorem readLoop_CL (f : Nat) (hf : 0 < f) (rest : List Nat) (msg : RawMessage) (ra : Bool)
    (d : Str) (hd : d ≠ []) (hdig : ∀ c ∈ d, 48 ≤ c ∧ c ≤ 57) :
    readLoop f (str "Content-Length: " ++ d ++ 13 :: 10 :: rest) msg ra =
      readLoop (f - 1) rest { msg with content_length := natVal d } true := by
  obtain ⟨f', rfl⟩ : ∃ f', f = f' + 1 := ⟨f - 1, by omega⟩
  simp only [Nat.add_sub_cancel]
  rw [readLoop]
  have hP : str "Content-Length: " ++ d ++ 13 :: 10 :: rest
      = (str "Content-Length: " ++ (d ++ [13])) ++ 10 :: rest := by simp
  have h10 : 10 ∉ str "Content-Length: " ++ (d ++ [13]) := by
    intro hm
    rcases List.mem_append.mp hm with hm | hm
    · exact (by decide : 10 ∉ str "Content-Length: ") hm
    · rcases List.mem_append.mp hm with hm | hm
      · have := hdig 10 hm; omega
      · simp at hm
  rw [hP, splitAtNL_append _ _ h10]
  dsimp only []
  have hascii : ∀ c ∈ (str "Content-Length: " ++ (d ++ [13])) ++ [10], c < 0x80 := by
    intro c hc
    rcases List.mem_append.mp hc with hc | hc
    · rcases List.mem_append.mp hc with hc | hc
      · exact (by decide : ∀ x ∈ str "Content-Length: ", x < 128) c hc
      · rcases List.mem_append.mp hc with hc | hc
        · have := hdig c hc; omega
        · simp at hc; omega
    · simp at hc; omega
  rw [utf8Decode_ascii _ hascii]
  dsimp only []
  have hne : trimStr ((str "Content-Length: " ++ (d ++ [13])) ++ [10]) ≠ [] := by
    apply trim_ne_nil 67
    · decide
    · simp [str]
  rw [if_neg hne]
  have hsplit : (str "Content-Length: " ++ (d ++ [13])) ++ [10]
      = str "Content-Length" ++ 58 :: (32 :: (d ++ [13, 10])) := by
    have he : str "Content-Length: " = str "Content-Length" ++ [58, 32] := by decide
    rw [he]
    simp
  rw [hsplit]
  have h58 : 58 ∉ str "Content-Length" := by decide
  rw [splitColon_append _ _ h58]
  dsimp only []
  have h58b : 58 ∉ 32 :: (d ++ [13, 10]) := by
    intro hm
    rcases List.mem_cons.mp hm with hm | hm
    · omega
    · rcases List.mem_append.mp hm with hm | hm
      · have := hdig 58 hm; omega
      · simp at hm
  rw [takeWhile_ne58_all _ h58b]
  have hnm : trimStr (str "Content-Length") = str "Content-Length" := by decide
  rw [hnm, if_pos rfl]
  have hval : trimStr (32 :: (d ++ [13, 10])) = d := by
    have h1 : 32 :: (d ++ [13, 10]) = [32] ++ d ++ [13, 10] := by simp
    rw [h1]
    exact trim_core [32] d [13, 10] (by decide) (by decide)
      (fun c hc => ((digit_plain c (hdig c hc)).2).1)
  rw [hval, parseUsize_digits d hd hdig]

/-- Processing one `Content-Type` header line. -/
theorem readLoop_CT (f : Nat) (hf : 0 < f) (rest : List Nat) (msg : RawMessage) (ra : Bool)
    (v : Str) (hv : ∀ c ∈ v, plainHC c) :
    readLoop f (str "Content-Type: " ++ v ++ 13 :: 10 :: rest) msg ra =
      readLoop (f - 1) rest { msg with content_type := v } true := by
  obtain ⟨f', rfl⟩ : ∃ f', f = f' + 1 := ⟨f - 1, by omega⟩
  simp only [Nat.add_sub_cancel]
  rw [readLoop]
  have hP : str "Content-Type: " ++ v ++ 13 :: 10 :: rest
      = (str "Content-Type: " ++ (v ++ [13])) ++ 10 :: rest := by simp
  have h10 : 10 ∉ str "Content-Type: " ++ (v ++ [13]) := by
    intro hm
    rcases List.mem_append.mp hm with hm | hm
    · exact (by decide : 10 ∉ str "Content-Type: ") hm
    · rcases List.mem_append.mp hm with hm | hm
      · exact ((hv 10 hm).2).2.2 rfl
      · simp at hm
  rw [hP, splitAtNL_append _ _ h10]
  dsimp only []
  have hascii : ∀ c ∈ (str "Content-Type: " ++ (v ++ [13])) ++ [10], c < 0x80 := by
    intro c hc
    rcases List.mem_append.mp hc with hc | hc
    · rcases List.mem_append.mp hc with hc | hc
      · exact (by decide : ∀ x ∈ str "Content-Type: ", x < 128) c hc
      · rcases List.mem_append.mp hc with hc | hc
        · exact (hv c hc).1
        · simp at hc; omega
    · simp at hc; omega
  rw [utf8Decode_ascii _ hascii]
  dsimp only []
  have hne : trimStr ((str "Content-Type: " ++ (v ++ [13])) ++ [10]) ≠ [] := by
    apply trim_ne_nil 67
    · decide
    · simp [str]
  rw [if_neg hne]
  have hsplit : (str "Content-Type: " ++ (v ++ [13])) ++ [10]
      = str "Content-Type" ++ 58 :: (32 :: (v ++ [13, 10])) := by
    have he : str "Content-Type: " = str "Content-Type" ++ [58, 32] := by decide
    rw [he]
    simp
  rw [hsplit]
  have h58 : 58 ∉ str "Content-Type" := by decide
  rw [splitColon_append _ _ h58]
  dsimp only []
  have h58b : 58 ∉ 32 :: (v ++ [13, 10]) := by
    intro hm
    rcases List.mem_cons.mp hm with hm | hm
    · omega
    · rcases List.mem_append.mp hm with hm | hm
      · exact ((hv 58 hm).2).2.1 rfl
      · simp at hm
  rw [takeWhile_ne58_all _ h58b]
  have hnm : trimStr (str "Content-Type") = str "Content-Type" := by decide
  rw [hnm]
  rw [if_neg (by decide : ¬ (str "Content-Type" = str "Content-Length"))]
  rw [if_pos rfl]
  have hval : trimStr (32 :: (v ++ [13, 10])) = v := by
    have h1 : 32 :: (v ++ [13, 10]) = [32] ++ v ++ [13, 10] := by simp
    rw [h1]
    exact trim_core [32] v [13, 10] (by decide) (by decide)
      (fun c hc => ((hv c hc).2).1)
  rw [hval]

/-- Processing a header line with an unrecognized name: the loop returns
the `Unexpected header field` error. -/
theorem readLoop_unknown (f : Nat) (hf : 0 < f) (rest : List Nat) (msg : RawMessage)
    (ra : Bool) (n v : Str) (hn0 : n ≠ []) (hn : ∀ c ∈ n, plainHC c)
    (hv : ∀ c ∈ v, plainHC c)
    (hn1 : n ≠ str "Content-Length") (hn2 : n ≠ str "Content-Type") :
    readLoop f (n ++ str ": " ++ v ++ 13 :: 10 :: rest) msg ra =
      .err (str "Unexpected header field \"" ++ n ++ str "\"!") := by
  obtain ⟨f', rfl⟩ : ∃ f', f = f' + 1 := ⟨f - 1, by omega⟩
  rw [readLoop]
  have hP : n ++ str ": " ++ v ++ 13 :: 10 :: rest
      = (n ++ (str ": " ++ (v ++ [13]))) ++ 10 :: rest := by simp
  have h10 : 10 ∉ n ++ (str ": " ++ (v ++ [13])) := by
    intro hm
    rcases List.mem_append.mp hm with hm | hm
    · exact ((hn 10 hm).2).2.2 rfl
    · rcases List.mem_append.mp hm with hm | hm
      · revert hm; decide
      · rcases List.mem_append.mp hm with hm | hm
        · exact ((hv 10 hm).2).2.2 rfl
        · simp at hm
  rw [hP, splitAtNL_append _ _ h10]
  dsimp only []
  have hascii : ∀ c ∈ (n ++ (str ": " ++ (v ++ [13]))) ++ [10], c < 0x80 := by
    intro c hc
    rcases List.mem_append.mp hc with hc | hc
    · rcases List.mem_append.mp hc with hc | hc
      · exact (hn c hc).1
      · rcases List.mem_append.mp hc with hc | hc
        · exact (by decide : ∀ x ∈ str ": ", x < 128) c hc
        · rcases List.mem_append.mp hc with hc | hc
          · exact (hv c hc).1
          · simp at hc; omega
    · simp at hc; omega
  rw [utf8Decode_ascii _ hascii]
  dsimp only []
  obtain ⟨a, n', rfl⟩ : ∃ a n', n = a :: n' := by
    cases n with
    | nil => exact absurd rfl hn0
    | cons a n' => exact ⟨a, n', rfl⟩
  have hne : trimStr ((a :: n' ++ (str ": " ++ (v ++ [13]))) ++ [10]) ≠ [] := by
    apply trim_ne_nil a
    · exact ((hn a (List.mem_cons_self a n')).2).1
    · simp
  rw [if_neg hne]
  have hsplit : (a :: n' ++ (str ": " ++ (v ++ [13]))) ++ [10]
      = (a :: n') ++ 58 :: (32 :: (v ++ [13, 10])) := by
    have he : str ": " = [58, 32] := by decide
    rw [he]
    simp
  rw [hsplit]
  have h58 : 58 ∉ a :: n' := by
    intro hm
    exact ((hn 58 hm).2).2.1 rfl
  rw [splitColon_append _ _ h58]
  dsimp only []
  have hnm : trimStr (a :: n') = a :: n' := by
    have := trim_core [] (a :: n') [] (by simp) (by simp) (fun c hc => ((hn c hc).2).1)
    simpa using this
  rw [hnm]
  rw [if_neg hn1, if_neg hn2]

/-- Processing a header line with no colon: the loop returns the header
syntax error. -/
theorem readLoop_nocolon (f : Nat) (hf : 0 < f) (rest : List Nat) (msg : RawMessage)
    (ra : Bool) (w : Str) (hw0 : w ≠ []) (hw : ∀ c ∈ w, plainHC c)
    (hw58 : 58 ∉ w) :
    readLoop f (w ++ 13 :: 10 :: rest) msg ra =
      .err (str "Syntax error: Header field needs to be of the form \"X: Y\r\n\"!") := by
  obtain ⟨f', rfl⟩ : ∃ f', f = f' + 1 := ⟨f - 1, by omega⟩
  rw [readLoop]
  have hP : w ++ 13 :: 10 :: rest = (w ++ [13]) ++ 10 :: rest := by simp
  have h10 : 10 ∉ w ++ [13] := by
    intro hm
    rcases List.mem_append.mp hm with hm | hm
    · exact ((hw 10 hm).2).2.2 rfl
    · simp at hm
  rw [hP, splitAtNL_append _ _ h10]
  dsimp only []
  have hascii : ∀ c ∈ (w ++ [13]) ++ [10], c < 0x80 := by
    intro c hc
    rcases List.mem_append.mp hc with hc | hc
    · rcases List.mem_append.mp hc with hc | hc
      · exact (hw c hc).1
      · simp at hc; omega
    · simp at hc; omega
  rw [utf8Decode_ascii _ hascii]
  dsimp only []
  obtain ⟨a, w', rfl⟩ : ∃ a w', w = a :: w' := by
    cases w with
    | nil => exact absurd rfl hw0
    | cons a w' => exact ⟨a, w', rfl⟩
  have hne : trimStr ((a :: w' ++ [13]) ++ [10]) ≠ [] := by
    apply trim_ne_nil a
    · exact ((hw a (List.mem_cons_self a w')).2).1
    · simp
  rw [if_neg hne]
  have h58 : 58 ∉ (a :: w' ++ [13]) ++ [10] := by
    intro hm
    rcases List.mem_append.mp hm with hm | hm
    · rcases List.mem_append.mp hm with hm | hm
      · exact hw58 hm
      · simp at hm
    · simp at hm
  rw [splitColon_none _ h58]

/-- A blank line after at least one header: the loop breaks and reads the
content. -/
theorem readLoop_blank_break (f : Nat) (hf : 0 < f) (rest : List Nat) (msg : RawMessage) :
    readLoop f (13 :: 10 :: rest) msg true = readContent msg rest := by
  obtain ⟨f', rfl⟩ : ∃ f', f = f' + 1 := ⟨f - 1, by omega⟩
  rfl

/-- A blank line before any header: skipped, the loop continues. -/
theorem readLoop_blank_skip (f : Nat) (hf : 0 < f) (rest : List Nat) (msg : RawMessage) :
    readLoop f (13 :: 10 :: rest) msg false = readLoop (f - 1) rest msg false := by
  obtain ⟨f', rfl⟩ : ∃ f', f = f' + 1 := ⟨f - 1, by omega⟩
  rfl

theorem readContent_ok (msg : RawMessage) (rest : List Nat) (s : Str)
    (h1 : msg.content_length ≤ rest.length)
    (h2 : utf8Decode (rest.take msg.content_length) = some s) :
    readContent msg rest = .ok { msg with content := s } (rest.drop msg.content_length) := by
  rw [readContent, if_neg (by omega), h2]

theorem readContent_badutf8 (msg : RawMessage) (rest : List Nat)
    (h1 : msg.content_length ≤ rest.length)
    (h2 : utf8Decode (rest.take msg.content_length) = none) :
    readContent msg rest = .panic (str "Error while converting content bytes to UTF8!") := by
  rw [readContent, if_neg (by omega), h2]

/-- Processing a `Content-Length` header line whose value does not parse:
the loop returns the parse error. -/
theorem readLoop_CL_err (f : Nat) (hf : 0 < f) (rest : List Nat) (msg : RawMessage)
    (ra : Bool) (v : Str) (e : Str) (hv : ∀ c ∈ v, plainHC c)
    (herr : parseUsize v = .error e) :
    readLoop f (str "Content-Length: " ++ v ++ 13 :: 10 :: rest) msg ra = .err e := by
  obtain ⟨f', rfl⟩ : ∃ f', f = f' + 1 := ⟨f - 1, by omega⟩
  rw [readLoop]
  have hP : str "Content-Length: " ++ v ++ 13 :: 10 :: rest
      = (str "Content-Length: " ++ (v ++ [13])) ++ 10 :: rest := by simp
  have h10 : 10 ∉ str "Content-Length: " ++ (v ++ [13]) := by
    intro hm
    rcases List.mem_append.mp hm with hm | hm
    · exact (by decide : 10 ∉ str "Content-Length: ") hm
    · rcases List.mem_append.mp hm with hm | hm
      · exact ((hv 10 hm).2).2.2 rfl
      · simp at hm
  rw [hP, splitAtNL_append _ _ h10]
  dsimp only []
  have hascii : ∀ c ∈ (str "Content-Length: " ++ (v ++ [13])) ++ [10], c < 0x80 := by
    intro c hc
    rcases List.mem_append.mp hc with hc | hc
    · rcases List.mem_append.mp hc with hc | hc
      · exact (by decide : ∀ x ∈ str "Content-Length: ", x < 128) c hc
      · rcases List.mem_append.mp hc with hc | hc
        · exact (hv c hc).1
        · simp at hc; omega
    · simp at hc; omega
  rw [utf8Decode_ascii _ hascii]
  dsimp only []
  have hne : trimStr ((str "Content-Length: " ++ (v ++ [13])) ++ [10]) ≠ [] := by
    apply trim_ne_nil 67
    · decide
    · simp [str]
  rw [if_neg hne]
  have hsplit : (str "Content-Length: " ++ (v ++ [13])) ++ [10]
      = str "Content-Length" ++ 58 :: (32 :: (v ++ [13, 10])) := by
    have he : str "Content-Length: " = str "Content-Length" ++ [58, 32] := by decide
    rw [he]
    simp
  rw [hsplit]
  have h58 : 58 ∉ str "Content-Length" := by decide
  rw [splitColon_append _ _ h58]
  dsimp only []
  have h58b : 58 ∉ 32 :: (v ++ [13, 10]) := by
    intro hm
    rcases List.mem_cons.mp hm with hm | hm
    · omega
    · rcases List.mem_append.mp hm with hm | hm
      · exact ((hv 58 hm).2).2.1 rfl
      · simp at hm
  rw [takeWhile_ne58_all _ h58b]
  have hnm : trimStr (str "Content-Length") = str "Content-Length" := by decide
  rw [hnm, if_pos rfl]
  have hval : trimStr (32 :: (v ++ [13, 10])) = v := by
    have h1 : 32 :: (v ++ [13, 10]) = [32] ++ v ++ [13, 10] := by simp
    rw [h1]
    exact trim_core [32] v [13, 10] (by decide) (by decide)
      (fun c hc => ((hv c hc).2).1)
  rw [hval, herr]

/-- C8 counterexample: the claim's "exactly" characterization fails in both
directions on concrete frames — a frame with no `Content-Length` header at
all is read successfully (`content_length` silently defaults to `0`), and a
frame whose content bytes are not valid UTF-8 makes `read` panic (process
abort) instead of returning an error. -/
theorem claim_C8_cex :
    RawMessage.read (str "Content-Type: x\r\n\r\n") = .ok ⟨0, str "x", []⟩ [] ∧
    RawMessage.read (str "Content-Length: 1\r\n\r\n" ++ [255]) =
      .panic (str "Error while converting content bytes to UTF8!") :=
  ⟨by decide, by decide⟩

/-- C8 (amended): `read` returns a recoverable `Err` for an unparseable
`Content-Length` value, for an unrecognized header name, and for a header
line with no colon; a missing `Content-Length` is tolerated (defaults to
`0`, the frame is read successfully); content bytes that are not valid
UTF-8 cause a panic (process abort), not a returned error. -/
theorem claim_C8 :
    (∀ (v : Str), (∀ c ∈ v, plainHC c) →
        RawMessage.read (str "Content-Type: " ++ v ++ 13 :: 10 :: 13 :: 10 :: ([] : List Nat)) =
          .ok ⟨0, v, []⟩ []) ∧
    (∀ (rest : List Nat) (v e : Str), (∀ c ∈ v, plainHC c) → parseUsize v = .error e →
        RawMessage.read (str "Content-Length: " ++ v ++ 13 :: 10 :: rest) = .err e) ∧
    (∀ (rest : List Nat) (n v : Str), n ≠ [] → (∀ c ∈ n, plainHC c) →
        (∀ c ∈ v, plainHC c) → n ≠ str "Content-Length" → n ≠ str "Content-Type" →
        RawMessage.read (n ++ str ": " ++ v ++ 13 :: 10 :: rest) =
          .err (str "Unexpected header field \"" ++ n ++ str "\"!")) ∧
    (∀ (rest : List Nat) (w : Str), w ≠ [] → (∀ c ∈ w, plainHC c) → 58 ∉ w →
        RawMessage.read (w ++ 13 :: 10 :: rest) =
          .err (str "Syntax error: Header field needs to be of the form \"X: Y\r\n\"!")) ∧
    (∀ (d : Str) (body : List Nat), d ≠ [] → (∀ c ∈ d, 48 ≤ c ∧ c ≤ 57) →
        natVal d ≤ body.length → utf8Decode (body.take (natVal d)) = none →
        RawMessage.read (str "Content-Length: " ++ d ++ 13 :: 10 :: 13 :: 10 :: body) =
          .panic (str "Error while converting content bytes to UTF8!")) := by
  refine ⟨?_, ?_, ?_, ?_, ?_⟩
  · intro v hv
    rw [RawMessage.read]
    rw [readLoop_CT _ (by omega) _ _ _ v hv]
    have hpos : 0 < (str "Content-Type: " ++ v ++ 13 :: 10 :: 13 :: 10 :: ([] : List Nat)).length + 1 - 1 := by
      simp [str]
    rw [readLoop_blank_break _ hpos]
    rfl
  · intro rest v e hv herr
    rw [RawMessage.read]
    exact readLoop_CL_err _ (by omega) _ _ _ v e hv herr
  · intro rest n v hn0 hn hv hn1 hn2
    rw [RawMessage.read]
    exact readLoop_unknown _ (by omega) _ _ _ n v hn0 hn hv hn1 hn2
  · intro rest w hw0 hw hw58
    rw [RawMessage.read]
    exact readLoop_nocolon _ (by omega) _ _ _ w hw0 hw hw58
  · intro d body hd hdig hlen hbad
    rw [RawMessage.read]
    rw [readLoop_CL _ (by omega) _ _ _ d hd hdig]
    have hpos : 0 < (str "Content-Length: " ++ d ++ 13 :: 10 :: 13 :: 10 :: body).length + 1 - 1 := by
      simp [str]
    rw [readLoop_blank_break _ hpos]
    exact readContent_badutf8 _ _ hlen hbad

theorem claim_C8_witness :
    RawMessage.read (str "Content-Type: " ++ str "x" ++ 13 :: 10 :: 13 :: 10 :: ([] : List Nat)) =
      .ok ⟨0, str "x", []⟩ [] ∧
    RawMessage.read (str "Content-Length: " ++ str "abc" ++ 13 :: 10 :: ([] : List Nat)) =
      .err (str "invalid digit found in string") ∧
    RawMessage.read (str "Foo" ++ str ": " ++ str "bar" ++ 13 :: 10 :: ([] : List Nat)) =
      .err (str "Unexpected header field \"" ++ str "Foo" ++ str "\"!") ∧
    RawMessage.read (str "garbage" ++ 13 :: 10 :: ([] : List Nat)) =
      .err (str "Syntax error: Header field needs to be of the form \"X: Y\r\n\"!") ∧
    RawMessage.read (str "Content-Length: " ++ str "1" ++ 13 :: 10 :: 13 :: 10 :: [255]) =
      .panic (str "Error while converting content bytes to UTF8!") :=
  ⟨claim_C8.1 (str "x") (by decide),
   claim_C8.2.1 [] (str "abc") (str "invalid digit found in string") (by decide) rfl,
   claim_C8.2.2.1 [] (str "Foo") (str "bar") (by decide) (by decide) (by decide)
     (by decide) (by decide),
   claim_C8.2.2.2.1 [] (str "garbage") (by decide) (by decide) (by decide),
   claim_C8.2.2.2.2 (str "1") [255] (by decide) (by decide) (by decide) (by decide)⟩

/-- C9: `write` emits `Content-Length: N\r\n`, then `Content-Type: …\r\n`
only when the content type is non-empty, then a blank `\r\n`, then the
content bytes verbatim with no trailing newline; and for every valid
single framed message (with or without a `Content-Type` header), writing
the `RawMessage` obtained by reading it reproduces the original frame's
content bytes exactly. -/
theorem claim_C9 :
    (∀ (m : RawMessage),
        RawMessage.write m =
          utf8Encode (str "Content-Length: " ++ natDec m.content_length ++ [13, 10]) ++
          (if m.content_type = [] then []
           else utf8Encode (str "Content-Type: " ++ m.content_type ++ [13, 10])) ++
          [13, 10] ++ utf8Encode m.content) ∧
    (∀ (d : Str) (body : List Nat) (s : Str), d ≠ [] → (∀ c ∈ d, 48 ≤ c ∧ c ≤ 57) →
        body.length = natVal d → utf8Decode body = some s →
        RawMessage.read (str "Content-Length: " ++ d ++ 13 :: 10 :: 13 :: 10 :: body) =
          .ok ⟨natVal d, [], s⟩ [] ∧
        RawMessage.write ⟨natVal d, [], s⟩ =
          utf8Encode (str "Content-Length: " ++ natDec (natVal d) ++ [13, 10]) ++
          [13, 10] ++ body) ∧
    (∀ (d v : Str) (body : List Nat) (s : Str), d ≠ [] → (∀ c ∈ d, 48 ≤ c ∧ c ≤ 57) →
        v ≠ [] → (∀ c ∈ v, plainHC c) →
        body.length = natVal d → utf8Decode body = some s →
        RawMessage.read (str "Content-Length: " ++ d ++ 13 :: 10 ::
            (str "Content-Type: " ++ v ++ 13 :: 10 :: 13 :: 10 :: body)) =
          .ok ⟨natVal d, v, s⟩ [] ∧
        RawMessage.write ⟨natVal d, v, s⟩ =
          utf8Encode (str "Content-Length: " ++ natDec (natVal d) ++ [13, 10]) ++
          utf8Encode (str "Content-Type: " ++ v ++ [13, 10]) ++
          [13, 10] ++ body) := by
  refine ⟨fun m => rfl, ?_, ?_⟩
  · intro d body s hd hdig hblen hdec
    constructor
    · rw [RawMessage.read]
      rw [readLoop_CL _ (by omega) _ _ _ d hd hdig]
      have hpos :
          0 < (str "Content-Length: " ++ d ++ 13 :: 10 :: 13 :: 10 :: body).length + 1 - 1 := by
        simp [str]
      rw [readLoop_blank_break _ hpos]
      have htake : body.take (natVal d) = body := by
        rw [← hblen]; exact List.take_length body
      have hdrop : body.drop (natVal d) = [] := by
        rw [← hblen]; exact List.drop_length body
      rw [readContent_ok ⟨natVal d, [], []⟩ body s (by simp [hblen]) (by rw [htake]; exact hdec)]
      rw [hdrop]
    · rw [RawMessage.write]
      simp only [if_pos rfl]
      rw [utf8_roundtrip body s hdec]
      simp only [List.nil_append, List.append_assoc]
      rfl
  · intro d v body s hd hdig hv0 hv hblen hdec
    constructor
    · rw [RawMessage.read]
      rw [readLoop_CL _ (by omega) _ _ _ d hd hdig]
      have hpos1 :
          0 < (str "Content-Length: " ++ d ++ 13 :: 10 ::
            (str "Content-Type: " ++ v ++ 13 :: 10 :: 13 :: 10 :: body)).length + 1 - 1 := by
        simp [str]
      rw [readLoop_CT _ hpos1 _ _ _ v hv]
      have hpos2 :
          0 < (str "Content-Length: " ++ d ++ 13 :: 10 ::
            (str "Content-Type: " ++ v ++ 13 :: 10 :: 13 :: 10 :: body)).length + 1 - 1 - 1 := by
        simp [str]
      rw [readLoop_blank_break _ hpos2]
      have htake : body.take (natVal d) = body := by
        rw [← hblen]; exact List.take_length body
      have hdrop : body.drop (natVal d) = [] := by
        rw [← hblen]; exact List.drop_length body
      rw [readContent_ok ⟨natVal d, v, []⟩ body s (by simp [hblen]) (by rw [htake]; exact hdec)]
      rw [hdrop]
    · rw [RawMessage.write]
      simp only [if_neg hv0]
      rw [utf8_roundtrip body s hdec]
      simp only [List.append_assoc]
      rfl

theorem claim_C9_witness :
    RawMessage.read (str "Content-Length: 2\r\n\r\nhi") = .ok ⟨2, [], str "hi"⟩ [] ∧
    RawMessage.write ⟨2, [], str "hi"⟩ = str "Content-Length: 2\r\n\r\nhi" ∧
    RawMessage.read (str "Content-Length: 2\r\nContent-Type: x\r\n\r\nhi") =
      .ok ⟨2, str "x", str "hi"⟩ [] := by
  have h1 := claim_C9.2.1 (str "2") (str "hi") (str "hi")
    (by decide) (by decide) (by decide) (by decide)
  have h2 := claim_C9.2.2 (str "2") (str "x") (str "hi") (str "hi")
    (by decide) (by decide) (by decide) (by decide) (by decide) (by decide)
  refine ⟨?_, ?_, ?_⟩
  · have e : str "Content-Length: " ++ str "2" ++ 13 :: 10 :: 13 :: 10 :: str "hi" =
        str "Content-Length: 2\r\n\r\nhi" := by decide
    have := h1.1
    rw [e] at this
    exact this.trans (by decide)
  · have e2 : utf8Encode (str "Content-Length: " ++ natDec (natVal (str "2")) ++ [13, 10]) ++
        [13, 10] ++ str "hi" = str "Content-Length: 2\r\n\r\nhi" := by decide
    exact h1.2.trans e2
  · have e : str "Content-Length: " ++ str "2" ++ 13 :: 10 ::
        (str "Content-Type: " ++ str "x" ++ 13 :: 10 :: 13 :: 10 :: str "hi") =
        str "Content-Length: 2\r\nContent-Type: x\r\n\r\nhi" := by decide
    have := h2.1
    rw [e] at this
    exact this.trans (by decide)

/-! ## Claims about classification, dispatch and error propagation -/

/-- C1, evaluated at the failing input: the JSON object
`jsonrpc 2.0, id 1, method "shutdown"` (a legal JSON-RPC request without
`params`) carries both `method` and `id`, yet the untagged first-match
decoding classifies it as a `Response` — `RequestMessage` fails for the
missing `params` field and `ResponseMessage` then succeeds.  The decision
is made by first-successful-structural-match union decoding, not by
explicit inspection of the `id` field. -/
theorem claim_C1 :
    Message.from_raw ⟨0, [],
        str "\x7b\"jsonrpc\":\"2.0\",\"id\":1,\"method\":\"shutdown\"\x7d"⟩ =
      .ok (.Response ⟨str "2.0", .AsInt 1, none, none⟩) ∧
    decodeMessage (.obj [(str "jsonrpc", .str (str "2.0")), (str "id", .num 1),
        (str "method", .str (str "shutdown"))]) =
      some (.Response ⟨str "2.0", .AsInt 1, none, none⟩) :=
  ⟨rfl, rfl⟩

/-- C2, evaluated at the failing inputs: a params-deserialization failure
and a JSON decode failure both surface as panics (the `expect` in the
route macro and the `unwrap` in `get_response`), aborting the process
instead of producing an `InvalidParams` error response; only framing
errors are turned into an error response (code `InternalError`, null id). -/
theorem claim_C2 :
    get_response (.ok ⟨0, [],
        str "\x7b\"jsonrpc\":\"2.0\",\"id\":1,\"method\":\"initialize\",\"params\":5\x7d"⟩)
        ⟨[]⟩ =
      .error (str "Error while deserializing params!") ∧
    get_response (.ok ⟨0, [], str "hi"⟩) ⟨[]⟩ =
      .error (str "called Result::unwrap() on an Err value: JSON parse error") ∧
    (∀ (s : State) (e : Str),
        get_response (.error e) s =
          .ok (s, some ⟨str "2.0", .AsJson .null, none, some ⟨-32603, e, none⟩⟩)) :=
  ⟨rfl, rfl, fun _ _ => rfl⟩

/-- C3, evaluated at the failing input: `didChange` and `hover` on a URI
absent from the document store panic (`expect`, a fatal abort) instead of
returning a recoverable `UnknownDocument` error. -/
theorem claim_C3 :
    did_change_text_document ⟨[]⟩ ⟨str "missing-uri"⟩ [⟨⟨⟨0, 0⟩, ⟨0, 0⟩⟩, []⟩] =
      .error (str "Unknown document \"missing-uri\"") ∧
    hover ⟨[]⟩ ⟨str "missing-uri"⟩ ⟨0, 0⟩ =
      .error (str "Unknown document \"missing-uri\"") ∧
    route_msg ⟨[]⟩ (.Notification ⟨str "2.0", str "textDocument/didChange",
        .obj [(str "textDocument", .obj [(str "uri", .str (str "missing-uri"))]),
              (str "contentChanges", .arr [.obj
                [(str "range", .obj
                   [(str "start", .obj [(str "line", .num 0), (str "character", .num 0)]),
                    (str "end", .obj [(str "line", .num 0), (str "character", .num 0)])]),
                 (str "text", .str [])]])]⟩) =
      .error (str "Unknown document \"missing-uri\"") :=
  ⟨rfl, rfl, rfl⟩

/-- C4: a request whose method is not in the dispatch table yields a
response with the request's id, no result, error code `-32601`
(`MethodNotFound`) and message `Unhandled request method!`; a notification
whose method is not in the table yields no response and leaves the state
untouched. -/
theorem claim_C4 :
    (∀ (s : State) (request : RequestMessage),
        request.method ≠ str "initialize" →
        request.method ≠ str "initialized" →
        request.method ≠ str "textDocument/didOpen" →
        request.method ≠ str "textDocument/didChange" →
        request.method ≠ str "textDocument/didClose" →
        request.method ≠ str "textDocument/hover" →
        route_msg s (.Request request) =
          .ok (s, some
            { jsonrpc := request.jsonrpc, id := request.id, result := none,
              error := some ⟨-32601,
                str "Unhandled request " ++ request.method ++ str "!", none⟩ })) ∧
    (∀ (s : State) (notification : NotificationMessage),
        notification.method ≠ str "initialize" →
        notification.method ≠ str "initialized" →
        notification.method ≠ str "textDocument/didOpen" →
        notification.method ≠ str "textDocument/didChange" →
        notification.method ≠ str "textDocument/didClose" →
        notification.method ≠ str "textDocument/hover" →
        route_msg s (.Notification notification) = .ok (s, none)) := by
  constructor
  · intro s request h1 _ _ _ _ h6
    rw [route_msg, if_neg h1, if_neg h6]
    rfl
  · intro s notification _ h2 h3 h4 h5 _
    rw [route_msg, if_neg h2, if_neg h3, if_neg h4, if_neg h5]

theorem claim_C4_witness :
    route_msg ⟨[]⟩ (.Request ⟨str "2.0", .AsInt 7, str "doesNotExist", .null⟩) =
      .ok (⟨[]⟩, some
        { jsonrpc := str "2.0", id := .AsInt 7, result := none,
          error := some ⟨-32601,
            str "Unhandled request " ++ str "doesNotExist" ++ str "!", none⟩ }) ∧
    route_msg ⟨[]⟩ (.Notification ⟨str "2.0", str "doesNotExist", .null⟩) =
      .ok (⟨[]⟩, none) :=
  ⟨claim_C4.1 ⟨[]⟩ ⟨str "2.0", .AsInt 7, str "doesNotExist", .null⟩
     (by decide) (by decide) (by decide) (by decide) (by decide) (by decide),
   claim_C4.2 ⟨[]⟩ ⟨str "2.0", str "doesNotExist", .null⟩
     (by decide) (by decide) (by decide) (by decide) (by decide) (by decide)⟩

/-- C10: the `RawMessage` built by `RawMessage::from` carries a
`content_length` equal to the UTF-8 byte length of the serialized content
(`String::len` counts bytes), the written frame declares exactly the byte
count of the body that follows, and on non-ASCII content the byte length
differs from the character count (`"é"` serializes to 3 characters but 4
bytes). -/
theorem claim_C10 :
    (∀ v : Json,
        (RawMessage.from v).content_length = (utf8Encode (Json.toString v)).length) ∧
    (∀ v : Json,
        RawMessage.write (RawMessage.from v) =
          utf8Encode (str "Content-Length: " ++
              natDec (utf8Encode (Json.toString v)).length ++ [13, 10]) ++
            [13, 10] ++ utf8Encode (Json.toString v)) ∧
    (RawMessage.from (.str [233])).content_length = 4 ∧
    (RawMessage.from (.str [233])).content.length = 3 := by
  refine ⟨fun _ => rfl, fun v => ?_, rfl, rfl⟩
  rw [RawMessage.write]
  have hct : (RawMessage.from v).content_type = [] := rfl
  rw [if_pos hct]
  simp only [List.append_nil, List.nil_append]
  rfl
